import Mathlib

/-!
Formal model of the Personal AI Assistant backend (paa-backend), shallowly
embedded in Lean 4, together with theorems settling the specification claims
about the conversational action pipeline, the fake-time clock, the proactive
reminder sweep, the commitment text parser, the structured-response parser,
the intent classifier and the hybrid retrieval ranking.

Conventions used throughout:
- timestamps are rational numbers of seconds where only durations matter
  (scheduler, time service), and a record of calendar day plus microsecond
  of day where calendar structure matters (deadline parsing);
- machine strings are Lean `String`s; Python `str.lower`, `str.strip`,
  `str.split()`, `str.replace` and substring tests are modelled by the
  character-list helpers `lowerStr`, `trimStr`, `pySplit`, `pyReplace`
  and `strContains` defined below;
- external collaborators (the SQL engine, the vector store, the spaCy
  embedding model, `json.loads`, pydantic validation) enter as parameters
  or oracle functions; everything written in the repository itself is
  translated directly.
-/

set_option maxRecDepth 4000

namespace PAA

/-! ## Time service (services/time_service.py)

Real and fake instants are rationals counting seconds.  The multiplier is an
integer, as in the source (`time_multiplier: int`). -/

/-- State of the `TimeService` singleton: `_use_fake_time`,
`_fake_start_time`, `_real_start_time`, `_time_multiplier`. -/
structure TimeServiceState where
  use_fake_time : Bool
  fake_start_time : Option ℚ
  real_start_time : Option ℚ
  time_multiplier : ℤ
deriving Repr, DecidableEq

/-- `TimeService._calculate_fake_time`, as a function of the real clock
reading `realNow` (the source calls `self._real_now()`):
if fake time is off, or either start time is unset, return real time;
otherwise return `fake_start + (realNow - real_start) * multiplier`. -/
def calculate_fake_time (s : TimeServiceState) (realNow : ℚ) : ℚ :=
  if s.use_fake_time = false then realNow
  else
    match s.real_start_time, s.fake_start_time with
    | some rs, some fs => fs + (realNow - rs) * (s.time_multiplier : ℚ)
    | _, _ => realNow

/-- `TimeService.now`: takes the lock and calls `_calculate_fake_time`. -/
def time_service_now (s : TimeServiceState) (realNow : ℚ) : ℚ :=
  calculate_fake_time s realNow

/-- `TimeService.set_multiplier`: an error (state unchanged) when fake time
is off; otherwise captures the current fake time and re-bases both start
times to the current instant with the new multiplier. -/
def set_multiplier (s : TimeServiceState) (realNow : ℚ) (newMult : ℤ) :
    TimeServiceState :=
  if s.use_fake_time = false then s
  else
    let currentFake := calculate_fake_time s realNow
    { use_fake_time := true
      fake_start_time := some currentFake
      real_start_time := some realNow
      time_multiplier := newMult }

/-! ## Proactive reminder sweep (scheduler.py, check_commitment_reminders) -/

/-- The fields of a `Commitment` row read or written by the reminder sweep. -/
structure SchedCommitment where
  id : ℕ
  user_id : ℕ
  task_description : String
  status : String
  deadline : Option ℚ
  reminder_count : ℕ
  last_reminded_at : Option ℚ
deriving Repr, DecidableEq

/-- A `ProactiveMessage` row as created by `send_proactive_message`. -/
structure ProactiveMsg where
  user_id : ℕ
  message_type : String
  content : String
  related_commitment_id : Option ℕ
  sent_at : ℚ
deriving Repr, DecidableEq

/-- Database state visible to the sweep. -/
structure SchedState where
  commitments : List SchedCommitment
  messages : List ProactiveMsg
deriving Repr, DecidableEq

/-- The SQL filter of the sweep: `status == "pending"`, `deadline < now`
(a NULL deadline compares false), `reminder_count < 2`. -/
def reminder_query (now : ℚ) (c : SchedCommitment) : Bool :=
  c.status = "pending" &&
    (match c.deadline with
     | some d => decide (d < now)
     | none => false) &&
    c.reminder_count < 2

/-- The in-loop spacing check: send if never reminded, or if more than
`min_interval = 30 * 60` seconds have passed since `last_reminded_at`.
The source hard-codes 30 minutes (the comment reads: 30 minutes instead of
24 hours for testing); there is no mode switch. -/
def spacing_ok (now : ℚ) (c : SchedCommitment) : Bool :=
  match c.last_reminded_at with
  | none => true
  | some t => decide (now - t > 30 * 60)

/-- A commitment is reminded on this sweep iff it passes the query filter
and the spacing check. -/
def reminder_fires (now : ℚ) (c : SchedCommitment) : Bool :=
  reminder_query now c && spacing_ok now c

/-- Message text chosen by `reminder_count` (0: gentle check-in,
1: encouraging retry; the query guarantees `reminder_count < 2`). -/
def reminder_text (c : SchedCommitment) : String :=
  if c.reminder_count = 0 then
    "You mentioned " ++ c.task_description ++ ". How did it go?"
  else
    "Looks like " ++ c.task_description ++
      " might have gotten away from you. Want to try again today?"

/-- Row update applied to a commitment that receives a reminder. -/
def reminder_step (now : ℚ) (c : SchedCommitment) : SchedCommitment :=
  if reminder_fires now c then
    { c with reminder_count := c.reminder_count + 1, last_reminded_at := some now }
  else c

/-- `check_commitment_reminders`: for every commitment matching the query,
apply the spacing check; on success insert a `ProactiveMessage` and bump
`reminder_count` / `last_reminded_at`.  All `now` reads within one sweep
happen in the same tick and are modelled by one value. -/
def check_commitment_reminders (now : ℚ) (st : SchedState) : SchedState :=
  { commitments := st.commitments.map (reminder_step now)
    messages := st.messages ++
      (st.commitments.filter (reminder_fires now)).map (fun c =>
        { user_id := c.user_id
          message_type := "commitment_reminder"
          content := reminder_text c
          related_commitment_id := some c.id
          sent_at := now }) }

/-- An overdue pending commitment, never reminded, used in the
counterexample below. -/
def c5_demo : SchedCommitment :=
  { id := 1, user_id := 1, task_description := "call mom", status := "pending"
    deadline := some 0, reminder_count := 0, last_reminded_at := none }

/-! ## Action processor dispatch (services/action_processor.py, process_response)

`process_response` builds one task list from `commitments`, `habit_actions`,
`people_updates`, `user_profile_updates` and `mood_analysis`, awaits the
tasks sequentially inside a per-item try/except, then runs a second loop
over `scheduled_actions`.  Each handler is itself wrapped in try/except and
normally returns a result dict; the value an `await` yields is abstracted
here as `AwaitRes`: a returned dict (with its success flag, error field and
visibility flag), a returned Python `None` (the reachable fall-through of
`_update_person` for an unknown `update_type`), or an exception escaping
the coroutine.  `_schedule_action` catches every exception internally and
always returns a dict, so the scheduled-actions loop is fed plain outcomes. -/

/-- The result dict appended to `outcomes`: its `success`, `error` and
`user_visible` entries. -/
structure AOutcome where
  success : Bool
  error : Option String
  user_visible : Bool
deriving Repr, DecidableEq

/-- What awaiting one task of the main loop yields. -/
inductive AwaitRes where
  /-- The handler returned a result dict. -/
  | ret (o : AOutcome)
  /-- The handler returned Python `None` (no dict). -/
  | retNone
  /-- The coroutine raised; `msg` models `str(e)`. -/
  | exn (msg : String)
deriving Repr, DecidableEq

/-- `ProcessingResult`: `outcomes` may contain a Python `None` entry
(modelled as `Option.none`) because the loop appends the awaited value
before touching it. -/
structure ProcessingResult where
  outcomes : List (Option AOutcome)
  errors : List String
deriving Repr, DecidableEq

/-- Model of the `str(e)` text of the `AttributeError` hit when the loop
calls `.get` on a `None` result. -/
def noneTypeAttrMsg : String := "NoneType object has no attribute get"

/-- One iteration of the main task loop of `process_response`:
a returned dict is appended to `outcomes`; a returned `None` is appended,
after which reading `.get` on it raises, so the except-branch also appends
an error and a synthetic failure outcome; a raising coroutine appends an
error and a synthetic failure outcome only. -/
def process_task_step (res : ProcessingResult) (t : AwaitRes) : ProcessingResult :=
  match t with
  | .ret o => { res with outcomes := res.outcomes ++ [some o] }
  | .retNone =>
      let m := "Error processing action: " ++ noneTypeAttrMsg
      { outcomes := res.outcomes ++
          [none, some { success := false, error := some m, user_visible := false }]
        errors := res.errors ++ [m] }
  | .exn e =>
      let m := "Error processing action: " ++ e
      { outcomes := res.outcomes ++
          [some { success := false, error := some m, user_visible := false }]
        errors := res.errors ++ [m] }

/-- `_schedule_action`: all work is inside its own try/except, so it is
total — a raising database insert yields a failure dict, otherwise a
success dict. -/
def schedule_action_run (dbRaises : Bool) (errText : String) : AOutcome :=
  if dbRaises then
    { success := false, error := some errText, user_visible := false }
  else
    { success := true, error := none, user_visible := true }

/-- `process_response`: main task loop followed by the scheduled-actions
loop (whose own except-branch is unreachable because `_schedule_action`
never raises; each of its outcomes is simply appended).  The final
`db.commit` is the transaction boundary and does not touch the result. -/
def process_response_model (tasks : List AwaitRes) (scheds : List AOutcome) :
    ProcessingResult :=
  let r1 := tasks.foldl process_task_step { outcomes := [], errors := [] }
  scheds.foldl (fun res o => { res with outcomes := res.outcomes ++ [some o] }) r1

/-- Number of outcomes carrying `success=True` (a `None` outcome counts as
not successful). -/
def successCount (os : List (Option AOutcome)) : ℕ :=
  os.countP (fun o => match o with | some a => a.success | none => false)

/-- A task-list action is malformed when it does not yield a success dict. -/
def taskMalformed : AwaitRes → Bool
  | .ret o => !o.success
  | .retNone => true
  | .exn _ => true

/-- A task raised to the dispatch loop. -/
def taskRaised : AwaitRes → Bool
  | .exn _ => true
  | _ => false

/-- A scheduled action is malformed when its (always returned) dict is not
a success. -/
def schedMalformed (o : AOutcome) : Bool := !o.success

/-- A task yielded a success dict. -/
def taskSucceeds : AwaitRes → Bool
  | .ret o => o.success
  | _ => false

/-- The `outcomes` entries one task-loop iteration appends. -/
def taskEmit : AwaitRes → List (Option AOutcome)
  | .ret o => [some o]
  | .retNone =>
      [none, some { success := false,
                    error := some ("Error processing action: " ++ noneTypeAttrMsg),
                    user_visible := false }]
  | .exn e =>
      [some { success := false, error := some ("Error processing action: " ++ e),
              user_visible := false }]

/-- The `errors` entries one task-loop iteration appends. -/
def taskErrs : AwaitRes → List String
  | .ret _ => []
  | .retNone => ["Error processing action: " ++ noneTypeAttrMsg]
  | .exn e => ["Error processing action: " ++ e]

/-! ## Small Python string helpers shared by several components -/

/-- Contiguous-sublist test (Python `in` on strings works on the
underlying character sequences). -/
def isSubListOf (pat : List Char) : List Char → Bool
  | [] => List.isPrefixOf pat []
  | c :: cs => List.isPrefixOf pat (c :: cs) || isSubListOf pat cs

/-- Python `sub in hay` on strings. -/
def strContains (hay sub : String) : Bool :=
  isSubListOf sub.toList hay.toList

/-- Python `str.lower()` (character-wise). -/
def lowerStr (s : String) : String :=
  String.mk (s.toList.map Char.toLower)

/-- Remove leading and trailing whitespace from a character list. -/
def trimChars (l : List Char) : List Char :=
  ((l.dropWhile Char.isWhitespace).reverse.dropWhile Char.isWhitespace).reverse

/-- Python `str.strip()`. -/
def trimStr (s : String) : String :=
  String.mk (trimChars s.toList)

/-- Worker for `pySplit`: `acc` holds the characters of the current word in
reverse. -/
def splitWsAux : List Char → List Char → List String
  | acc, [] => if acc = [] then [] else [String.mk acc.reverse]
  | acc, c :: cs =>
    if c.isWhitespace then
      if acc = [] then splitWsAux [] cs
      else String.mk acc.reverse :: splitWsAux [] cs
    else splitWsAux (c :: acc) cs

/-- Python `str.split()` with no argument: split on whitespace runs,
dropping empty pieces. -/
def pySplit (s : String) : List String :=
  splitWsAux [] s.toList

/-- Worker for `pyReplace`; the fuel bounds the number of steps (each step
consumes at least one character of the scanned text). -/
def replaceAllAux : ℕ → List Char → List Char → List Char → List Char
  | 0, _, _, s => s
  | _ + 1, _, _, [] => []
  | fuel + 1, pat, rep, c :: cs =>
    if pat ≠ [] ∧ List.isPrefixOf pat (c :: cs) then
      rep ++ replaceAllAux fuel pat rep ((c :: cs).drop pat.length)
    else
      c :: replaceAllAux fuel pat rep cs

/-- Python `str.replace(pat, rep)`: replace every non-overlapping
occurrence, scanning left to right and continuing after each replacement. -/
def pyReplace (s pat rep : String) : String :=
  String.mk (replaceAllAux (s.toList.length + 1) pat.toList rep.toList s.toList)

/-- Python regex `\w` (ASCII): alphanumeric or underscore. -/
def isWordChar (c : Char) : Bool := c.isAlphanum || c = '_'

/-! ## Habit-name normalization (services/habit_matcher.py) -/

/-- `HabitMatcher.verb_normalizations`, in insertion (iteration) order. -/
def verb_normalizations : List (String × String) :=
  [("exercised", "exercise"), ("worked out", "workout"),
   ("did laundry", "laundry"), ("do laundry", "laundry"),
   ("meditated", "meditate"), ("went for a walk", "walk"),
   ("took a walk", "walk"), ("cooked", "cook"), ("cleaned", "clean"),
   ("studied", "study"), ("read", "reading"), ("drank water", "drink water"),
   ("played games", "gaming"), ("play games", "gaming")]

/-- `HabitMatcher.stop_words`. -/
def stop_words : List String :=
  ["i", "my", "the", "a", "an", "do", "did", "doing",
   "have", "had", "has", "take", "took", "taking",
   "go", "went", "going", "get", "got", "getting",
   "make", "made", "making", "some", "today", "yesterday"]

/-- Group a character list into maximal runs of word / non-word
characters (the granularity at which a word-boundary regex operates). -/
def groupRuns : List Char → List (List Char)
  | [] => []
  | c :: cs =>
    match groupRuns cs with
    | [] => [[c]]
    | r :: rs =>
      match r with
      | [] => [c] :: rs
      | d :: _ =>
        if isWordChar c = isWordChar d then (c :: r) :: rs else [c] :: r :: rs

/-- The word list removed by the redundant-word regex
`\b(daily|regularly|usually|always|after|work|evening|morning|in|the)\b`. -/
def boundary_remove_words : List String :=
  ["daily", "regularly", "usually", "always", "after", "work", "evening",
   "morning", "in", "the"]

/-- Apply the redundant-word regex: delete every maximal word-character run
equal to one of the listed words. -/
def removeBoundaryWords (s : String) : String :=
  String.mk ((groupRuns s.toList).flatMap (fun run =>
    if run.all isWordChar && String.mk run ∈ boundary_remove_words then []
    else run))

/-- Worker for whitespace collapsing, fuelled by the text length. -/
def collapseWsAux : ℕ → List Char → List Char
  | 0, s => s
  | _ + 1, [] => []
  | fuel + 1, c :: cs =>
    if c.isWhitespace then ' ' :: collapseWsAux fuel (cs.dropWhile Char.isWhitespace)
    else c :: collapseWsAux fuel cs

/-- Python regex substitution of whitespace runs by a single space. -/
def collapseWs (s : String) : String :=
  String.mk (collapseWsAux (s.toList.length + 1) s.toList)

/-- The punctuation filter `re.sub(r'[^\w\s-]', '', ...)`: keep only word
characters, whitespace and hyphens. -/
def removePunct (s : String) : String :=
  String.mk (s.toList.filter (fun c => isWordChar c || c.isWhitespace || c = '-'))

/-- `HabitMatcher._apply_pattern_normalizations`. -/
def apply_pattern_normalizations (text original_text : String) : String :=
  let gaming_patterns : List (String × String) :=
    [("gaming evening after work", "gaming"), ("gaming evening", "gaming"),
     ("games evening after work", "gaming"), ("games evening", "gaming"),
     ("games after work", "gaming")]
  match gaming_patterns.find? (fun p => strContains text p.1) with
  | some p => p.2
  | none =>
    let text := if strContains text "games" then pyReplace text "games" "gaming" else text
    let cooking_patterns : List (String × String) :=
      [("self cook meals", "cooking"), ("cooked meals", "cooking"),
       ("cook meals", "cooking"), ("self cooked", "cooking")]
    match cooking_patterns.find? (fun p => strContains text p.1) with
    | some p => p.2
    | none =>
      let text := if strContains text "therapy" && strContains text "chat" then "therapy" else text
      let text := collapseWs (trimStr (removeBoundaryWords text))
      if text = "" || text ∈ ["in", "the", "a", "an"] then
        if strContains original_text "gaming" || strContains original_text "games" then
          "gaming"
        else text
      else text

/-- `HabitMatcher.normalize_habit_name`: lowercase and strip, apply verb
normalizations, drop punctuation, remove stop words (reverting to the
lowercased input when nothing is left), rejoin, and apply pattern
normalizations.  This is the cleaned/normalized form the specification
describes for auto-created habits. -/
def normalize_habit_name (habit_name : String) : String :=
  let normalized := trimStr (lowerStr habit_name)
  let normalized := verb_normalizations.foldl
    (fun n p => if strContains n p.1 then pyReplace n p.1 p.2 else n) normalized
  let normalized := removePunct normalized
  let filtered_words := (pySplit normalized).filter (fun w => w ∉ stop_words)
  if filtered_words = [] then trimStr (lowerStr habit_name)
  else
    let normalized := String.intercalate " " filtered_words
    trimStr (apply_pattern_normalizations normalized habit_name)

/-! ## Completion logging (services/action_processor.py,
`_log_commitment_completion`)

The database is the list of `Commitment` and `CommitmentCompletion` rows a
session sees; `next_id` models the primary key `db.flush()` would assign.
`first()` returns the first row of the session's list; the SQL `ilike`
with surrounding percent signs is a case-insensitive substring test (the
identifiers involved contain no further wildcard characters). -/

/-- The `Commitment` columns read or written by completion logging. -/
structure DbCommitment where
  id : ℕ
  user_id : ℕ
  task_description : String
  recurrence_pattern : String
  status : String
  completion_count : ℕ
  last_completed_at : Option ℚ
deriving Repr, DecidableEq

/-- A `CommitmentCompletion` row. -/
structure DbCompletion where
  commitment_id : ℕ
  user_id : ℕ
  completion_date : ℤ
  completed_at : ℚ
  notes : Option String
  skipped : Bool
deriving Repr, DecidableEq

/-- Session-visible database state. -/
structure Database where
  commitments : List DbCommitment
  completions : List DbCompletion
  next_id : ℕ
deriving Repr, DecidableEq

/-- The fields of a `HabitAction` used by completion logging; the
completion date is a calendar day number. -/
structure HabitActionIn where
  habit_identifier : String
  completion_date : Option ℤ
  notes : Option String
deriving Repr, DecidableEq

/-- The outcome dict of completion logging: success flag, `type` tag,
`was_auto_created`, and the id of the commitment acted on. -/
structure LogOutcome where
  success : Bool
  otype : String
  was_auto_created : Bool
  commitment_id : ℕ
deriving Repr, DecidableEq

/-- The lookup filter: same user, task description `ilike`
`%identifier%`, a recurrence pattern other than `none`, active status. -/
def matches_habit_query (uid : ℕ) (ident : String) (c : DbCommitment) : Bool :=
  c.user_id = uid &&
    strContains (lowerStr c.task_description) (lowerStr ident) &&
    c.recurrence_pattern ≠ "none" && c.status = "active"

/-- The commitment auto-created when no lookup match exists:
`task_description` is the **stripped identifier**
(`habit_action.habit_identifier.strip()`), recurrence `daily`, status
`active`, zero completions. -/
def auto_created_commitment (ident : String) (uid nextId : ℕ) : DbCommitment :=
  { id := nextId, user_id := uid, task_description := trimStr ident
    recurrence_pattern := "daily", status := "active"
    completion_count := 0, last_completed_at := none }

/-- The per-row update applied when a completion is recorded. -/
def bump_completion (now : ℚ) (cid : ℕ) (x : DbCommitment) : DbCommitment :=
  if x.id = cid then
    { x with completion_count := x.completion_count + 1, last_completed_at := some now }
  else x

/-- Second half of `_log_commitment_completion`: check for an existing
completion on the resolved date; if present, succeed with an
already-completed outcome and change nothing; otherwise insert the
completion row and bump the commitment counters. -/
def log_completion_for (c : DbCommitment) (auto : Bool) (ha : HabitActionIn)
    (uid : ℕ) (now : ℚ) (today : ℤ) (db : Database) : Database × LogOutcome :=
  let d := ha.completion_date.getD today
  match db.completions.find?
      (fun r => r.commitment_id = c.id && r.completion_date = d) with
  | some _ => (db, { success := true, otype := "commitment_already_completed",
                     was_auto_created := auto, commitment_id := c.id })
  | none =>
      let row : DbCompletion :=
        { commitment_id := c.id, user_id := uid, completion_date := d
          completed_at := now, notes := ha.notes, skipped := false }
      ({ commitments := db.commitments.map (bump_completion now c.id)
         completions := db.completions ++ [row]
         next_id := db.next_id },
       { success := true, otype := "commitment_completed",
         was_auto_created := auto, commitment_id := c.id })

/-- `_log_commitment_completion`: find an active recurring commitment whose
task matches the identifier; if none, auto-create one (flush assigns the
fresh id); then record the completion. -/
def log_commitment_completion (ha : HabitActionIn) (uid : ℕ) (now : ℚ)
    (today : ℤ) (db : Database) : Database × LogOutcome :=
  match db.commitments.find? (matches_habit_query uid ha.habit_identifier) with
  | some c => log_completion_for c false ha uid now today db
  | none =>
      let c := auto_created_commitment ha.habit_identifier uid db.next_id
      log_completion_for c true ha uid now today
        { commitments := db.commitments ++ [c]
          completions := db.completions
          next_id := db.next_id + 1 }

/-! ## Similar-commitment retrieval and ranking (services/rag_system.py)

`_get_similar_commitments` scores the user's recent commitments by
keyword overlap with the message; `_get_enhanced_similar_commitments`
merges those with vector-store matches and sorts the merged dict values.
The vector store is an external collaborator: its response list is a
parameter.  Only the fields that drive control flow are carried. -/

/-- A recent `Commitment` row as seen by the keyword search (the session
returns them ordered by `created_at` descending, already limited to 20). -/
structure KwCommitment where
  id : ℕ
  task_description : String
deriving Repr, DecidableEq

/-- One vector-store result for `search_commitments`. -/
structure VecResult where
  commitment_id : ℕ
  task_description : String
  similarity_score : ℚ
deriving Repr, DecidableEq

/-- A merged entry of `all_commitments`: keyword entries store
`retrieval_method='keyword'` and — crucially — the key
`semantic_similarity` with value `None`; vector entries store the
similarity under the same key. -/
structure RankedEntry where
  id : ℕ
  task_description : String
  retrieval_method : String
  semantic_similarity : Option ℚ
  keyword_score : Option ℕ
deriving Repr, DecidableEq

/-- Stable descending insertion by key (same output as Python's stable
sort with `reverse=True`). -/
def insertDescBy {α β : Type} [LinearOrder β] (key : α → β) (x : α) :
    List α → List α
  | [] => [x]
  | y :: ys => if key y < key x then x :: y :: ys else y :: insertDescBy key x ys

/-- Stable descending sort by key. -/
def sortDescBy {α β : Type} [LinearOrder β] (key : α → β) (l : List α) : List α :=
  l.foldl (fun acc x => insertDescBy key x acc) []

/-- `_get_similar_commitments`: keep commitments sharing at least 2
distinct lowercase words with the message, scored by the overlap count,
sorted by score descending, truncated to `limit`. -/
def get_similar_commitments (message : String) (recent : List KwCommitment)
    (limit : ℕ) : List (KwCommitment × ℕ) :=
  let message_words := (pySplit (lowerStr message)).dedup
  let scored := recent.filterMap (fun c =>
    let overlap := ((pySplit (lowerStr c.task_description)).dedup.filter
      (fun w => w ∈ message_words)).length
    if 2 ≤ overlap then some (c, overlap) else none)
  (sortDescBy (fun p => (p.2 : ℤ)) scored).take limit

/-- `_get_enhanced_similar_commitments`.  Keyword entries are inserted
first (with `semantic_similarity = None`); a vector match is added when its
id is fresh and its score exceeds 0.6.  The final
`sorted(..., key=lambda x: x.get('semantic_similarity',
x.get('similarity_score', 0)), reverse=True)` reads the **stored** value of
`semantic_similarity`; for a keyword entry that value is `None`, so the
comparison `None < float` (or `None < None`) raises `TypeError` whenever
the merged list has at least two entries one of which is a keyword entry.
The raise is modelled as `Except.error`. -/
def enhanced_similar_commitments (message : String) (recent : List KwCommitment)
    (vec : List VecResult) (limit : ℕ) : Except String (List RankedEntry) :=
  let sql := get_similar_commitments message recent 2
  let keywordEntries : List RankedEntry := sql.map (fun p =>
    { id := p.1.id, task_description := p.1.task_description
      retrieval_method := "keyword", semantic_similarity := none
      keyword_score := some p.2 })
  let merged := vec.foldl (fun acc v =>
    if acc.any (fun e => e.id = v.commitment_id) || !(decide ((6 : ℚ)/10 < v.similarity_score)) then
      acc
    else
      acc ++ [{ id := v.commitment_id, task_description := v.task_description
                retrieval_method := "semantic"
                semantic_similarity := some v.similarity_score
                keyword_score := none }]) keywordEntries
  if 2 ≤ merged.length ∧ merged.any (fun e => e.semantic_similarity = none) then
    Except.error "TypeError: NoneType is not orderable"
  else
    Except.ok ((sortDescBy (fun e => e.semantic_similarity.getD 0) merged).take limit)

/-- Two stored commitments each sharing two words with the message. -/
def c9_recent : List KwCommitment :=
  [{ id := 1, task_description := "call mom tomorrow" },
   { id := 2, task_description := "call mom friday" }]

/-! ## Intent classification scoring
(services/nlp_intent_classifier.py, `_classify_intent_semantic`)

The spaCy document vector and the cosine similarities against the averaged
per-intent example embeddings are external collaborators: they enter as the
flag `hasVector` and the function `sim`.  The linguistic-pattern boosts and
the blending, maximum, threshold and fallback logic are translated from the
source. -/

/-- The intent categories, in the insertion order of `intent_examples`
(which fixes tie-breaking of Python's `max`). -/
def intent_names : List String :=
  ["habit_tracking", "commitment_making", "mood_reflection",
   "social_reference", "information_query"]

/-- The apostrophe character, used to build tokens such as the
contraction of "I will". -/
def apos : Char := Char.ofNat 39

/-- The lowercase contraction token for "I will". -/
def iWillShort : String := String.mk ['i', apos, 'l', 'l']

/-- Python `str.startswith(tuple)`. -/
def startsWithAny (t : String) (ps : List String) : Bool :=
  ps.any (fun p => List.isPrefixOf p.toList t.toList)

/-- `_get_pattern_scores` for one intent, over the lowercased message
text. -/
def get_pattern_scores (text : String) (intent : String) : ℚ :=
  let lt := lowerStr text
  if intent = "habit_tracking" then
    (if ["usually", "always", "everyday", "daily", "regularly", "typically",
          "normally"].any (fun w => strContains lt w) then 1 else 0) +
    (if (["drink", "eat", "take", "exercise", "meditate", "work out",
           "practice"].any (fun w => strContains lt w) &&
         ["everyday", "daily", "regularly", "usually", "always"].any
           (fun w => strContains lt w)) then 3/2 else 0)
  else if intent = "commitment_making" then
    if [iWillShort, "i will", "i need to", "i should", "remind me"].any
        (fun w => strContains lt w) then 1 else 0
  else if intent = "mood_reflection" then
    if ["feel", "feeling", "mood", "stressed", "happy", "sad", "anxious"].any
        (fun w => strContains lt w) then 1 else 0
  else if intent = "information_query" then
    if strContains lt "?" ||
        startsWithAny lt ["how", "what", "when", "where", "why", "did i",
          "have i"] then 1 else 0
  else 0

/-- The blended score of one intent: cosine similarity plus 0.3 times the
pattern boost. -/
def blended_score (sim : String → ℚ) (text : String) (intent : String) : ℚ :=
  sim intent + get_pattern_scores text intent * (3/10)

/-- Python `max(final_scores.items(), key=...)` over the intent dict, ties
resolved in favour of the earlier intent. -/
def best_intent (sim : String → ℚ) (text : String) : String × ℚ :=
  match intent_names with
  | [] => ("general_chat", 1/2)
  | i :: is =>
    is.foldl (fun b j =>
      if b.2 < blended_score sim text j then (j, blended_score sim text j) else b)
      (i, blended_score sim text i)

/-- `_classify_intent_semantic`: fall back to `general_chat` with
confidence exactly 0.5 when the document has no vector or the best blended
score is below 0.4; otherwise return the best intent with its score capped
at 1. -/
def classify_intent_semantic (hasVector : Bool) (sim : String → ℚ)
    (text : String) : String × ℚ :=
  if !hasVector then ("general_chat", 1/2)
  else
    let best := best_intent sim text
    if best.2 < 2/5 then ("general_chat", 1/2)
    else (best.1, min best.2 1)

/-! ## Commitment text parser (services/commitment_parser.py)

A Python `datetime` is a calendar day number (day 0 is a Monday, making
`weekday()` equal to `day mod 7`) together with the microsecond of day.
Messages are modelled as lists of whitespace-separated tokens of word
characters (plus the apostrophe of contractions); on such messages the
compiled patterns operate exactly at token granularity, which is how the
scanners below are written. -/

/-- A Python `datetime`: epoch day (day 0 a Monday) and microsecond of
day. -/
structure PyDT where
  day : ℤ
  usec : ℕ
deriving Repr, DecidableEq

/-- 23:59:59.000000 as a microsecond of day
(`replace(hour=23, minute=59, second=59, microsecond=0)`). -/
def endOfDayUsec : ℕ := 86399000000

/-- End of the given calendar day. -/
def endOfDay (d : ℤ) : PyDT := ⟨d, endOfDayUsec⟩

/-- `datetime.__lt__` (lexicographic). -/
def dtBefore (a b : PyDT) : Bool :=
  a.day < b.day || (a.day = b.day && a.usec < b.usec)

/-- `datetime.hour`. -/
def PyDT.hour (t : PyDT) : ℕ := t.usec / 3600000000

/-- `datetime.weekday()`: Monday is 0. -/
def PyDT.weekday (t : PyDT) : ℤ := t.day % 7

/-- The weekday-name table of `_get_next_weekday`. -/
def weekday_index : List (String × ℤ) :=
  [("monday", 0), ("tuesday", 1), ("wednesday", 2), ("thursday", 3),
   ("friday", 4), ("saturday", 5), ("sunday", 6)]

/-- The weekday names accepted by the deadline parser. -/
def weekday_names : List String :=
  ["monday", "tuesday", "wednesday", "thursday", "friday", "saturday", "sunday"]

/-- `CommitmentParser._get_next_weekday`: days until the next occurrence of
the named weekday; the same weekday maps to next week (directly when it is
past 18:00, via the `days_ahead <= 0` branch otherwise). -/
def get_next_weekday (weekday_name : String) (now : PyDT) : PyDT :=
  match weekday_index.find? (fun p => p.1 = lowerStr weekday_name) with
  | none => endOfDay now.day
  | some p =>
    let days_ahead := p.2 - now.weekday
    let days_ahead :=
      if days_ahead = 0 ∧ 18 ≤ now.hour then 7
      else if days_ahead ≤ 0 then days_ahead + 7
      else days_ahead
    endOfDay (now.day + days_ahead)

/-- Python `str.startswith`. -/
def startsWithStr (s p : String) : Bool := List.isPrefixOf p.toList s.toList

/-- Drop a known prefix (by length). -/
def dropPrefixStr (s p : String) : String :=
  String.mk (s.toList.drop p.toList.length)

/-- `CommitmentParser._parse_deadline`: total — every unparseable phrase
falls back to the end of the current day. -/
def parse_deadline (now : PyDT) (time_phrase : String) : PyDT :=
  let tp := trimStr (lowerStr time_phrase)
  if tp = "today" then endOfDay now.day
  else if tp = "tomorrow" then endOfDay (now.day + 1)
  else if tp = "this weekend" then
    let du := (6 - now.weekday) % 7
    let du := if du = 0 ∧ 18 ≤ now.hour then 7 else du
    endOfDay (now.day + du)
  else if startsWithStr tp "this " then
    let period := dropPrefixStr tp "this "
    if period = "week" then
      let du := (6 - now.weekday) % 7
      let du := if du = 0 then 7 else du
      endOfDay (now.day + du)
    else if period ∈ weekday_names then get_next_weekday period now
    else endOfDay now.day
  else if startsWithStr tp "by " then
    let target := dropPrefixStr tp "by "
    if target ∈ weekday_names then get_next_weekday target now
    else if target = "next week" then
      endOfDay (now.day + ((6 - now.weekday) % 7 + 7))
    else endOfDay now.day
  else endOfDay now.day

/-- Python `str.endswith`. -/
def endsWithStr (s p : String) : Bool := List.isSuffixOf p.toList s.toList

/-- Re-insert the unconsumed suffix of a partially consumed token (a match
may end in the middle of a token; `finditer` then continues from that
character position, so the leftover characters stand first in the
remaining text). -/
def remTok (s : String) (rest : List String) : List String :=
  if s.toList = [] then rest else s :: rest

/-- The time-phrase alternation
`(today|tomorrow|this\s+\w+|by\s+\w+|this\s+weekend)` tried at a token
start (group 2 sits right after `\s+`, so it always starts there), with
the alternatives in source order.  The regex carries no boundary anchor,
so `today`/`tomorrow` match as literal prefixes of the token and leave its
remaining characters unconsumed; `this\s+\w+`/`by\s+\w+` need the token to
be exactly `this`/`by` (the literal must be followed by whitespace) and
the next token to start with a `\w` character, of which `\w+` greedily
captures the maximal run, leaving the rest of that token unconsumed;
`this\s+weekend` is unreachable because `weekend` starts with a word
character, so `this\s+\w+` already matched.  Matching is case-insensitive
(`re.IGNORECASE`) and the capture keeps the original case, with the
single-space join of the token convention.  Returns the captured group-2
text and the remaining tokens. -/
def time_alt : List String → Option (String × List String)
  | [] => none
  | w :: rest =>
    let lw := lowerStr w
    if startsWithStr lw "today" then
      some (String.mk (w.toList.take 5), remTok (String.mk (w.toList.drop 5)) rest)
    else if startsWithStr lw "tomorrow" then
      some (String.mk (w.toList.take 8), remTok (String.mk (w.toList.drop 8)) rest)
    else if lw = "this" || lw = "by" then
      match rest with
      | w2 :: rest2 =>
        let wp := w2.toList.takeWhile isWordChar
        if wp = [] then none
        else some (w ++ " " ++ String.mk wp,
          remTok (String.mk (w2.toList.dropWhile isWordChar)) rest2)
      | [] => none
    else none

/-- The lazy group `(.+?)\s+` before the time alternation: `(.+?)` starts
right after the prefix's `\s+` and must be followed by `\s+` itself, so it
covers whole tokens and grows lazily until the alternation matches at the
next token start.  Returns (task tokens, captured phrase, remainder). -/
def lazy_task (acc : List String) :
    List String → Option (List String × String × List String)
  | [] => none
  | w :: rest =>
    match time_alt rest with
    | some (g2, r) => some (acc ++ [w], g2, r)
    | none => lazy_task (acc ++ [w]) rest

/-- The literal words before `\s+(.+?)` in patterns 1-4 and 6-8, tried at
a token: the first word is unanchored on the left, so it only has to END
the token (the source regex `I'll\s+...` also matches inside a token such
as `XI'll`); every later word sits between two `\s+` and must be a whole
token.  Case-insensitive. -/
def prefix_hit (pre ws : List String) : Bool :=
  match pre, ws with
  | p :: ps, w :: rest =>
    endsWithStr (lowerStr w) p && List.isPrefixOf ps (rest.map lowerStr)
  | _, _ => false

/-- One fuelled pass of `finditer` for a pattern of the form
`PREFIX\s+(.+?)\s+(ALT)`: scan token positions left to right for the
prefix words, take the lazy match, continue after the match end (whose
unconsumed token suffix, if any, heads the remainder). -/
def scan_prefix_aux : ℕ → List String → List String →
    List (List String × String)
  | 0, _, _ => []
  | _ + 1, _, [] => []
  | fuel + 1, pre, w :: rest =>
    if prefix_hit pre (w :: rest) then
      match lazy_task [] ((w :: rest).drop pre.length) with
      | some (task, g2, r) => (task, g2) :: scan_prefix_aux fuel pre r
      | none => scan_prefix_aux fuel pre rest
    else scan_prefix_aux fuel pre rest

/-- All matches of one prefix pattern. -/
def scan_prefix (pre ws : List String) : List (List String × String) :=
  scan_prefix_aux (ws.length + 1) pre ws

/-- The tail `needs?\s+to\s+be\s+done\s+` of pattern 5; returns the
remainder after `done`. -/
def needs_tail : List String → Option (List String)
  | w0 :: w1 :: w2 :: w3 :: rest =>
    if (lowerStr w0 = "need" || lowerStr w0 = "needs") &&
        lowerStr w1 = "to" && lowerStr w2 = "be" && lowerStr w3 = "done" then
      some rest
    else none
  | _ => none

/-- Lazy group-1 search for pattern 5
(`(.+?)\s+needs?\s+to\s+be\s+done\s+(ALT)`); `needs?` is wrapped in `\s+`
on both sides, so it must be the whole token `need` or `needs`. -/
def needs_split (acc : List String) :
    List String → Option (List String × String × List String)
  | [] => none
  | w :: rest =>
    match needs_tail rest with
    | some afterNeeds =>
      (match time_alt afterNeeds with
       | some (g2, r) => some (acc ++ [w], g2, r)
       | none => needs_split (acc ++ [w]) rest)
    | none => needs_split (acc ++ [w]) rest

/-- Fuelled `finditer` for pattern 5. -/
def scan_needs_aux : ℕ → List String → List (List String × String)
  | 0, _ => []
  | fuel + 1, ws =>
    match needs_split [] ws with
    | some (task, g2, r) => (task, g2) :: scan_needs_aux fuel r
    | none => []

/-- All matches of pattern 5. -/
def scan_needs (ws : List String) : List (List String × String) :=
  scan_needs_aux (ws.length + 1) ws

/-- The lowercase contraction token for "I am". -/
def iAmShort : String := String.mk ['i', apos, 'm']

/-- All matches of the eight compiled patterns, in pattern order. -/
def all_matches (ws : List String) : List (List String × String) :=
  scan_prefix [iWillShort] ws ++
  scan_prefix ["i", "need", "to"] ws ++
  scan_prefix ["i", "should"] ws ++
  scan_prefix [iAmShort, "going", "to"] ws ++
  scan_needs ws ++
  scan_prefix ["i", "have", "to"] ws ++
  scan_prefix ["i", "really", "need", "to"] ws ++
  scan_prefix ["i", "must"] ws

/-- `CommitmentParser._clean_task_description` on the task's tokens:
remove one leading `to `/`the `, one trailing ` though`/` but`/` however`,
capitalize the first letter, strip. -/
def clean_task (ws : List String) : String :=
  let ws := match ws with
    | w :: w2 :: rest =>
      if lowerStr w = "to" || lowerStr w = "the" then w2 :: rest else ws
    | _ => ws
  let ws := if 2 ≤ ws.length &&
      (match ws.getLast? with
       | some w => lowerStr w = "though" || lowerStr w = "but" || lowerStr w = "however"
       | none => false) then ws.dropLast else ws
  let joined := String.intercalate " " ws
  let joined := match joined.toList with
    | [] => joined
    | c :: cs => String.mk (c.toUpper :: cs)
  trimStr joined

/-- The generic placeholders the extractor skips. -/
def generic_tasks : List String :=
  ["it", "this", "that", "do it", "do this", "do that", "something",
   "do something"]

/-- One extracted commitment dict. -/
structure ParsedCommitment where
  task_description : String
  original_message : String
  deadline : PyDT
  time_phrase : String
deriving Repr, DecidableEq

/-- Whether a raw match is skipped (task shorter than 3 characters or a
generic placeholder). -/
def match_skipped (m : List String × String) : Bool :=
  (clean_task m.1).toList.length < 3 || lowerStr (clean_task m.1) ∈ generic_tasks

/-- Build the commitment dict of one retained match
(`time_phrase = match.group(2).strip()`). -/
def match_commit (now : PyDT) (msg : String) (m : List String × String) :
    ParsedCommitment :=
  { task_description := clean_task m.1
    original_message := msg
    deadline := parse_deadline now (trimStr m.2)
    time_phrase := trimStr m.2 }

/-- Final duplicate removal, keeping the first commitment per lowercase
task description. -/
def dedupe_commitments (seen : List String) :
    List ParsedCommitment → List ParsedCommitment
  | [] => []
  | c :: rest =>
    if lowerStr c.task_description ∈ seen then dedupe_commitments seen rest
    else c :: dedupe_commitments (lowerStr c.task_description :: seen) rest

/-- `CommitmentParser.extract_commitments` over a tokenized message: run
all patterns, clean and filter each match, parse its deadline (always
truthy), and deduplicate by task description. -/
def extract_commitments (now : PyDT) (ws : List String) : List ParsedCommitment :=
  dedupe_commitments []
    ((all_matches ws).foldl (fun acc m =>
      if match_skipped m then acc
      else acc ++ [match_commit now (String.intercalate " " ws) m]) [])

/-! ## Structured response parsing (services/llm_processor.py)

JSON values as returned by `json.loads`.  Numbers are rationals;
dictionaries are association lists with distinct keys (JSON decoding keeps
one value per key). -/

/-- A decoded JSON value. -/
inductive JVal where
  | null
  | jbool (b : Bool)
  | jnum (q : ℚ)
  | jstr (s : String)
  | jarr (xs : List JVal)
  | jobj (fields : List (String × JVal))
deriving Repr

/-- Python `dict.get(k)` on a decoded object. -/
def jget (d : List (String × JVal)) (k : String) : Option JVal :=
  (d.find? (fun p => p.1 = k)).map (fun p => p.2)

/-- Python `dict.get(k, default)`. -/
def jgetD (d : List (String × JVal)) (k : String) (v : JVal) : JVal :=
  (jget d k).getD v

/-- Python truthiness of a decoded value. -/
def truthy : JVal → Bool
  | .null => false
  | .jbool b => b
  | .jnum q => !(q == 0)
  | .jstr s => !(s == "")
  | .jarr xs => !xs.isEmpty
  | .jobj fs => !fs.isEmpty

/-- `reminder_strategy` after parsing (schemas/ai_responses.py
`ReminderStrategy`). -/
structure ReminderStrategy where
  initial_reminder : PyDT
  follow_up_reminders : List PyDT
  escalation : String
  custom_message : Option String
deriving Repr

/-- A parsed commitment (schemas/ai_responses.py `ExtractedCommitment`);
fields whose pydantic coercion is not under verification are carried as
raw JSON values. -/
structure ExtractedCommitment where
  task_description : JVal
  deadline : Option PyDT
  deadline_type : String
  priority : String
  recurrence_pattern : String
  reminder_strategy : ReminderStrategy
  related_people : JVal
  related_habits : JVal
deriving Repr

/-- A parsed habit action (pydantic-validated by an oracle below). -/
structure HabitAction where
  action_type : String
  habit_identifier : String
  details : JVal
  completion_date : Option ℤ
  notes : Option String
  new_habit_details : Option JVal
deriving Repr

/-- A parsed person update. -/
structure PersonUpdate where
  person_name : String
  update_type : String
  content : String
  tags : JVal
deriving Repr

/-- A parsed user-profile update. -/
structure UserProfileUpdate where
  update_type : String
  content : String
  category : String
deriving Repr

/-- A parsed scheduled action. -/
structure ScheduledAction where
  message_content : String
  send_time : PyDT
  trigger_type : String
  trigger_condition : Option JVal
  expected_response_type : Option String
deriving Repr

/-- A parsed mood analysis; only `detected_mood` is normalized by the
code under verification, the other fields are carried raw. -/
structure MoodAnalysis where
  detected_mood : String
  confidence : JVal
  contributing_factors : JVal
  suggested_interventions : JVal
  should_check_in_later : JVal
deriving Repr

/-- Parsed response metadata (fields carried raw). -/
structure ResponseMetadata where
  requires_user_confirmation : JVal
  confidence_level : JVal
  alternative_interpretations : JVal
  context_used : JVal
deriving Repr

/-- The structured response contract
(schemas/ai_responses.py `StructuredAIResponse`). -/
structure StructuredAIResponse where
  message : JVal
  commitments : List ExtractedCommitment
  habit_actions : List HabitAction
  people_updates : List PersonUpdate
  user_profile_updates : List UserProfileUpdate
  scheduled_actions : List ScheduledAction
  mood_analysis : Option MoodAnalysis
  response_metadata : ResponseMetadata
deriving Repr

/-- Sub-parsers abstracted as oracles.  `parse_deadline_field` stands for
llm_processor.py lines 404-409 (`datetime.fromisoformat` with the fuzzy
fallback), `parse_reminder_strategy` for lines 411-453 (string and object
reminder formats; a missing key behaves as the empty dict default), and the
four `mk_*` functions for the pydantic constructions of the habit, person,
profile and scheduled items (lines 509-582), each of which may raise.  No
claim under verification depends on their internals. -/
structure ParseOracles where
  parse_deadline_field : JVal → Except String (Option PyDT)
  parse_reminder_strategy : Option JVal → Option PyDT → Except String ReminderStrategy
  mk_habit_action : List (String × JVal) → Except String HabitAction
  mk_person_update : List (String × JVal) → Except String PersonUpdate
  mk_profile_update : List (String × JVal) → Except String UserProfileUpdate
  mk_scheduled_action : List (String × JVal) → Except String ScheduledAction

/-- The recognized `deadline_type` literals. -/
def valid_deadline_types : List String := ["specific", "fuzzy", "recurring"]

/-- Normalization of `deadline_type` (llm_processor.py lines 455-469):
recognized values pass through; `generic`/`flexible` map to `fuzzy`;
`exact`/`fixed` map to `specific`; everything else — including non-string
values, whose dict-get default is the string `fuzzy` — falls back to
`fuzzy`. -/
def normalize_deadline_type (v : JVal) : String :=
  match v with
  | .jstr s =>
    if s ∈ valid_deadline_types then s
    else if s = "generic" ∨ s = "flexible" then "fuzzy"
    else if s = "exact" ∨ s = "fixed" then "specific"
    else "fuzzy"
  | _ => "fuzzy"

/-- Normalization of `priority` (lines 471-478). -/
def normalize_priority (v : JVal) : String :=
  match v with
  | .jstr s => if s ∈ ["high", "medium", "low"] then s else "medium"
  | _ => "medium"

/-- The recognized `detected_mood` literals. -/
def valid_moods : List String :=
  ["very_positive", "positive", "neutral", "negative", "very_negative"]

/-- The list stored under key `k`, defaulting to `[]` both when the key is
absent and when the value is not a list (lines 389-391 and analogues). -/
def jlist (d : List (String × JVal)) (k : String) : List JVal :=
  match jget d k with
  | some (.jarr xs) => xs
  | some _ => []
  | none => []

/-- The commitments loop (lines 393-500): skip non-dict entries, parse the
deadline only when truthy, delegate the reminder strategy, normalize
`deadline_type` and `priority`, default the remaining fields.  The fields
the normalizers do not touch are carried as raw decoded values; the
pydantic field-type validation of `ExtractedCommitment(...)` (which makes
the per-commitment try/except skip an entry whose raw `task_description`
or list fields have the wrong type, lines 496-500) is not modelled, so
this loop covers the entries whose raw fields validate. -/
def parse_commitments_loop (o : ParseOracles) (cds : List JVal) :
    Except String (List ExtractedCommitment) :=
  cds.foldlM (fun acc cd =>
    match cd with
    | .jobj fs => do
        let deadline ← (match jget fs "deadline" with
          | some v => if truthy v then o.parse_deadline_field v else Except.ok none
          | none => Except.ok none)
        let rs ← o.parse_reminder_strategy (jget fs "reminder_strategy") deadline
        Except.ok (acc ++
          [{ task_description := jgetD fs "task_description" (.jstr "")
             deadline := deadline
             deadline_type := normalize_deadline_type
               (jgetD fs "deadline_type" (.jstr "fuzzy"))
             priority := normalize_priority (jgetD fs "priority" (.jstr "medium"))
             recurrence_pattern := "none"
             reminder_strategy := rs
             related_people := jgetD fs "related_people" (.jarr [])
             related_habits := jgetD fs "related_habits" (.jarr []) }])
    | _ => Except.ok acc) []

/-- The habit/people/profile/scheduled loops: non-dict entries are
silently skipped; each dict entry goes through its pydantic construction
(an oracle), whose exception propagates. -/
def parse_item_loop {α : Type} (mk : List (String × JVal) → Except String α)
    (xs : List JVal) : Except String (List α) :=
  xs.foldlM (fun acc x =>
    match x with
    | .jobj fs => do
        let a ← mk fs
        Except.ok (acc ++ [a])
    | _ => Except.ok acc) []

/-- The mood block (lines 584-604): a missing or falsy `mood_analysis`
yields `None`; a truthy non-dict raises; `detected_mood` is lowercased
(raising on a non-string value) and falls back to `neutral` when
unrecognized; the missing-key default is already the string `neutral`. -/
def parse_mood_analysis (v : Option JVal) : Except String (Option MoodAnalysis) :=
  match v with
  | none => Except.ok none
  | some mv =>
    if truthy mv then
      match mv with
      | .jobj fs => do
          let raw ← (match jget fs "detected_mood" with
            | none => Except.ok "neutral"
            | some (.jstr s) => Except.ok (lowerStr s)
            | some _ => Except.error "AttributeError: detected_mood has no lower")
          let dm := if raw ∈ valid_moods then raw else "neutral"
          Except.ok (some
            { detected_mood := dm
              confidence := jgetD fs "confidence" (.jnum (1/2))
              contributing_factors := jgetD fs "contributing_factors" (.jarr [])
              suggested_interventions := jgetD fs "suggested_interventions" (.jarr [])
              should_check_in_later := jgetD fs "should_check_in_later" (.jbool false) })
      | _ => Except.error "AttributeError: mood_analysis has no get"
    else Except.ok none

/-- The metadata block (lines 606-613): a missing key behaves as the empty
dict; a non-dict value raises on `.get`. -/
def parse_response_metadata (v : Option JVal) : Except String ResponseMetadata :=
  match v with
  | none => Except.ok
      { requires_user_confirmation := .jbool false
        confidence_level := .jnum (8/10)
        alternative_interpretations := .jarr []
        context_used := .jarr [] }
  | some (.jobj fs) => Except.ok
      { requires_user_confirmation := jgetD fs "requires_user_confirmation" (.jbool false)
        confidence_level := jgetD fs "confidence_level" (.jnum (8/10))
        alternative_interpretations := jgetD fs "alternative_interpretations" (.jarr [])
        context_used := jgetD fs "context_used" (.jarr []) }
  | some _ => Except.error "AttributeError: response_metadata has no get"

/-- `HybridLLMProcessor._parse_structured_response` over a decoded object:
the field loops in source order, then the final construction with the
defaulted `message`. -/
def parse_structured_response (o : ParseOracles) (d : List (String × JVal)) :
    Except String StructuredAIResponse := do
  let commitments ← parse_commitments_loop o (jlist d "commitments")
  let habit_actions ← parse_item_loop o.mk_habit_action (jlist d "habit_actions")
  let people_updates ← parse_item_loop o.mk_person_update (jlist d "people_updates")
  let user_profile_updates ← parse_item_loop o.mk_profile_update
    (jlist d "user_profile_updates")
  let scheduled_actions ← parse_item_loop o.mk_scheduled_action
    (jlist d "scheduled_actions")
  let mood_analysis ← parse_mood_analysis (jget d "mood_analysis")
  let response_metadata ← parse_response_metadata (jget d "response_metadata")
  Except.ok
    { message := jgetD d "message" (.jstr "I understand. Let me help you with that.")
      commitments := commitments
      habit_actions := habit_actions
      people_updates := people_updates
      user_profile_updates := user_profile_updates
      scheduled_actions := scheduled_actions
      mood_analysis := mood_analysis
      response_metadata := response_metadata }

/-! ## The fallback response (llm_processor.py, `_create_fallback_response`)
and the parse path of `process_message` (lines 204-257). -/

/-- Split at the first occurrence of `pat` (non-empty): the part before it
and the part after it. -/
def splitAtSub (pat : List Char) : List Char → Option (List Char × List Char)
  | [] => none
  | c :: cs =>
    if List.isPrefixOf pat (c :: cs) then some ([], (c :: cs).drop pat.length)
    else
      match splitAtSub pat cs with
      | some (pre, post) => some (c :: pre, post)
      | none => none

/-- The opening marker tag. -/
def srOpen : List Char := "<system-reminder>".toList

/-- The closing marker tag. -/
def srClose : List Char := "</system-reminder>".toList

/-- Fuelled worker for tag stripping: remove each lazily-matched
`open ... close` span, scanning left to right; an opening tag with no
closing tag after it leaves the text unchanged (the regex cannot match
anywhere in that case). -/
def stripTagsAux : ℕ → List Char → List Char
  | 0, s => s
  | fuel + 1, s =>
    match splitAtSub srOpen s with
    | none => s
    | some (pre, afterOpen) =>
      match splitAtSub srClose afterOpen with
      | none => s
      | some (_, afterClose) => pre ++ stripTagsAux fuel afterClose

/-- `re.sub` of the marker-tag pattern with the empty string. -/
def stripTags (s : List Char) : List Char :=
  stripTagsAux (s.length + 1) s

/-- The literal `"message"` (with its quotes) of the salvage regex. -/
def msgKeyPat : List Char := "\"message\"".toList

/-- Try the salvage regex `"message"\s*:\s*"([^"]*)"` at the current
position; the capture is everything up to the next quote, which must
exist. -/
def matchMsgAt (s : List Char) : Option (List Char) :=
  if List.isPrefixOf msgKeyPat s then
    match (s.drop msgKeyPat.length).dropWhile Char.isWhitespace with
    | ':' :: r3 =>
      (match r3.dropWhile Char.isWhitespace with
       | '"' :: r5 =>
         if r5.any (fun c => c = '"') then some (r5.takeWhile (fun c => c ≠ '"'))
         else none
       | _ => none)
    | _ => none
  else none

/-- `re.search` for the salvage regex: leftmost match. -/
def extractMessageField : List Char → Option (List Char)
  | [] => none
  | c :: cs =>
    match matchMsgAt (c :: cs) with
    | some m => some m
    | none => extractMessageField cs

/-- The generic default reply. -/
def genericMsg : String := "I understand. Let me help you with that."

/-- The opening-brace character. -/
def lbrace : Char := Char.ofNat 123

/-- The pre-emptiness-check conversational text of the fallback: the
regex-salvaged value if any; otherwise the generic default when the
cleaned text looks like JSON mentioning `message`, else the cleaned text
itself. -/
def fallback_conv (cleaned : List Char) : List Char :=
  match extractMessageField cleaned with
  | some m => m
  | none =>
    if (match cleaned with
        | c :: _ => c = lbrace
        | [] => false) && isSubListOf "message".toList cleaned then
      genericMsg.toList
    else cleaned

/-- The `message` string the fallback response carries: tag-strip and
strip the raw text, compute the conversational text, and replace an empty
result by the generic default. -/
def fallback_message_chars (raw_response : String) : List Char :=
  if (fallback_conv (trimChars (stripTags raw_response.toList))).isEmpty then
    genericMsg.toList
  else fallback_conv (trimChars (stripTags raw_response.toList))

/-- `_create_fallback_response`: the salvaged (or default) message with
every list field empty, no mood analysis, and fallback metadata.  The
`message` argument is unused by the source as well. -/
def create_fallback_response (message raw_response : String) : StructuredAIResponse :=
  { message := .jstr (String.mk (fallback_message_chars raw_response))
    commitments := []
    habit_actions := []
    people_updates := []
    user_profile_updates := []
    scheduled_actions := []
    mood_analysis := none
    response_metadata :=
      { requires_user_confirmation := .jbool false
        confidence_level := .jnum (1/2)
        alternative_interpretations := .jarr []
        context_used := .jarr [.jstr "fallback_mode"] } }

/-- The parse path of `process_message` after the raw text has been
tag-stripped: `loadsRaw` is `json.loads` on the whole text (`none` models
`JSONDecodeError`); `fencedLoads` is the fenced-block extraction plus
parse, `none` covering both a missing fence and an unparseable fence (both
re-raise into the fallback).  Non-dict JSON and a raising
`_parse_structured_response` also fall back.  No exception escapes. -/
def process_message_model (o : ParseOracles) (message raw : String)
    (loadsRaw fencedLoads : Option JVal) : StructuredAIResponse :=
  match (match loadsRaw with
         | some v => some v
         | none => fencedLoads) with
  | none => create_fallback_response message raw
  | some v =>
    match v with
    | .jobj fs =>
      (match parse_structured_response o fs with
       | .ok r => r
       | .error _ => create_fallback_response message raw)
    | _ => create_fallback_response message raw

/-- Inert oracles for concrete evaluations on inputs that never invoke
them. -/
def triv_oracles : ParseOracles :=
  { parse_deadline_field := fun _ => Except.ok none
    parse_reminder_strategy := fun _ _ => Except.ok
      { initial_reminder := ⟨0, 0⟩, follow_up_reminders := []
        escalation := "gentle", custom_message := none }
    mk_habit_action := fun _ => Except.error "unused"
    mk_person_update := fun _ => Except.error "unused"
    mk_profile_update := fun _ => Except.error "unused"
    mk_scheduled_action := fun _ => Except.error "unused" }

/-- The response parsed from the empty object with inert oracles. -/
def c6_empty_response : StructuredAIResponse :=
  { message := .jstr "I understand. Let me help you with that."
    commitments := []
    habit_actions := []
    people_updates := []
    user_profile_updates := []
    scheduled_actions := []
    mood_analysis := none
    response_metadata :=
      { requires_user_confirmation := .jbool false
        confidence_level := .jnum (8/10)
        alternative_interpretations := .jarr []
        context_used := .jarr [] } }

/-! ## Theorems for the time service (claim C10) -/

/-- C10: whenever fake time is active with recorded start times,
`TimeService.now()` equals `fake_start_time` plus `time_multiplier` times
the real seconds elapsed since `real_start_time`; and `set_multiplier`
re-bases both start times to the current instant, so the fake-time value at
the moment of the multiplier change is preserved (no discontinuity in
`now()` across the change). -/
theorem C10_theorem (s : TimeServiceState) (rs fs realNow : ℚ) (m : ℤ)
    (hf : s.use_fake_time = true) (hrs : s.real_start_time = some rs)
    (hfs : s.fake_start_time = some fs) :
    time_service_now s realNow = fs + (s.time_multiplier : ℚ) * (realNow - rs) ∧
    time_service_now (set_multiplier s realNow m) realNow = time_service_now s realNow := by
  unfold time_service_now set_multiplier calculate_fake_time
  rw [hf]
  simp only [Bool.true_eq_false, if_false, hrs, hfs]
  constructor
  · ring
  · ring

/-- Witness for C10 at a concrete state: fake time active, fake start 1000,
real start 50, multiplier 600, queried at real instant 60 with a change to
multiplier 7. -/
theorem C10_witness :
    time_service_now ⟨true, some 1000, some 50, 600⟩ 60 =
      1000 + ((600 : ℤ) : ℚ) * (60 - 50) ∧
    time_service_now (set_multiplier ⟨true, some 1000, some 50, 600⟩ 60 7) 60 =
      time_service_now ⟨true, some 1000, some 50, 600⟩ 60 :=
  C10_theorem ⟨true, some 1000, some 50, 600⟩ 50 1000 60 7 rfl rfl rfl

/-! ## Theorems for the reminder sweep (claim C5) -/

/-- Counterexample to C5 as stated: the claim asserts a 24-hour minimum
spacing in real mode, but the source hard-codes 30 minutes.  For every
pending overdue commitment with fewer than two reminders, the claim says
two sweeps within 24 hours send exactly one reminder and bump the count by
exactly one; two sweeps 2 hours apart over a fresh overdue commitment send
two reminders and bump the count to 2. -/
theorem C5_counterexample :
    ¬ (∀ (c : SchedCommitment) (msgs : List ProactiveMsg) (t0 t1 : ℚ),
        reminder_query t0 c = true → t0 ≤ t1 → t1 - t0 < 86400 →
        ((check_commitment_reminders t1
            (check_commitment_reminders t0 ⟨[c], msgs⟩)).messages.length =
          msgs.length + 1 ∧
         (check_commitment_reminders t1
            (check_commitment_reminders t0 ⟨[c], msgs⟩)).commitments =
          [{ c with reminder_count := c.reminder_count + 1,
                    last_reminded_at := some t0 }])) := by
  intro h
  have h2 := (h c5_demo [] 10 7210
    (by norm_num [reminder_query, c5_demo]) (by norm_num) (by norm_num)).1
  have h3 : (check_commitment_reminders 7210
      (check_commitment_reminders 10 ⟨[c5_demo], []⟩)).messages.length = 2 := by
    norm_num [check_commitment_reminders, reminder_fires, reminder_query, spacing_ok,
      reminder_step, c5_demo]
  rw [h3] at h2
  simp at h2

/-- C5 as amended: the minimum spacing interval is 30 minutes in every mode
(the source hard-codes `min_interval = 30 * 60` with no real/fake switch).
For a commitment due for a reminder at the first sweep, a second sweep
within 30 minutes sends nothing further: exactly one message is added and
`reminder_count` rises by exactly 1; and no sweep ever reminds a commitment
whose `reminder_count` has reached 2. -/
theorem C5_theorem (c : SchedCommitment) (msgs : List ProactiveMsg) (t0 t1 : ℚ)
    (hfire : reminder_fires t0 c = true) (hspace : t1 - t0 ≤ 30 * 60) :
    ((check_commitment_reminders t1
        (check_commitment_reminders t0 ⟨[c], msgs⟩)).messages.length =
      msgs.length + 1 ∧
     (check_commitment_reminders t1
        (check_commitment_reminders t0 ⟨[c], msgs⟩)).commitments =
      [{ c with reminder_count := c.reminder_count + 1,
                last_reminded_at := some t0 }]) ∧
    (∀ (d : SchedCommitment) (t : ℚ), 2 ≤ d.reminder_count →
      reminder_fires t d = false) := by
  have hc' : reminder_step t0 c =
      { c with reminder_count := c.reminder_count + 1, last_reminded_at := some t0 } := by
    unfold reminder_step
    rw [hfire]
    simp
  have hnofire : reminder_fires t1
      ({ c with reminder_count := c.reminder_count + 1, last_reminded_at := some t0 }) = false := by
    unfold reminder_fires spacing_ok
    have : ¬ (t1 - t0 > 30 * 60) := not_lt.mpr hspace
    simp [this]
  have hstep2 : reminder_step t1
      ({ c with reminder_count := c.reminder_count + 1, last_reminded_at := some t0 }) =
      { c with reminder_count := c.reminder_count + 1, last_reminded_at := some t0 } := by
    unfold reminder_step
    rw [hnofire]
    simp
  constructor
  · unfold check_commitment_reminders
    simp only [List.map_cons, List.map_nil, List.filter_cons, List.filter_nil, hfire, hc',
      hnofire, hstep2]
    simp
  · intro d t hd
    unfold reminder_fires reminder_query
    have : ¬ (d.reminder_count < 2) := not_lt.mpr hd
    simp [this]

/-- Witness for C5 at concrete data: an overdue commitment reminded at
t = 10 is not reminded again at t = 100. -/
theorem C5_witness :
    ((check_commitment_reminders 100
        (check_commitment_reminders 10 ⟨[c5_demo], []⟩)).messages.length =
      List.length ([] : List ProactiveMsg) + 1 ∧
     (check_commitment_reminders 100
        (check_commitment_reminders 10 ⟨[c5_demo], []⟩)).commitments =
      [{ c5_demo with reminder_count := c5_demo.reminder_count + 1,
                      last_reminded_at := some 10 }]) ∧
    (∀ (d : SchedCommitment) (t : ℚ), 2 ≤ d.reminder_count →
      reminder_fires t d = false) :=
  C5_theorem c5_demo [] 10 100 (by decide) (by norm_num)

lemma process_task_step_eq (res : ProcessingResult) (t : AwaitRes) :
    process_task_step res t =
      { outcomes := res.outcomes ++ taskEmit t, errors := res.errors ++ taskErrs t } := by
  cases t <;> simp [process_task_step, taskEmit, taskErrs]

lemma process_tasks_foldl (tasks : List AwaitRes) (init : ProcessingResult) :
    tasks.foldl process_task_step init =
      { outcomes := init.outcomes ++ tasks.flatMap taskEmit
        errors := init.errors ++ tasks.flatMap taskErrs } := by
  induction tasks generalizing init with
  | nil => simp
  | cons a l ih =>
      rw [List.foldl_cons, ih, process_task_step_eq]
      simp

lemma sched_foldl (scheds : List AOutcome) (init : ProcessingResult) :
    scheds.foldl
        (fun res o => { res with outcomes := res.outcomes ++ [some o] }) init =
      { outcomes := init.outcomes ++ scheds.map some, errors := init.errors } := by
  induction scheds generalizing init with
  | nil => simp
  | cons a l ih =>
      rw [List.foldl_cons, ih]
      simp

/-- Closed form of `process_response_model`. -/
lemma process_response_model_eq (tasks : List AwaitRes) (scheds : List AOutcome) :
    process_response_model tasks scheds =
      { outcomes := tasks.flatMap taskEmit ++ scheds.map some
        errors := tasks.flatMap taskErrs } := by
  unfold process_response_model
  rw [process_tasks_foldl, sched_foldl]
  simp

lemma taskEmit_length (t : AwaitRes) (h : t ≠ .retNone) : (taskEmit t).length = 1 := by
  cases t <;> simp [taskEmit] at h ⊢

lemma successCount_append (l₁ l₂ : List (Option AOutcome)) :
    successCount (l₁ ++ l₂) = successCount l₁ + successCount l₂ :=
  List.countP_append _ _ _

lemma successCount_taskEmit (t : AwaitRes) :
    successCount (taskEmit t) = if taskSucceeds t then 1 else 0 := by
  cases t with
  | ret o => cases ho : o.success <;> simp [taskEmit, taskSucceeds, successCount, ho]
  | retNone => simp [taskEmit, taskSucceeds, successCount]
  | exn e => simp [taskEmit, taskSucceeds, successCount]

lemma successCount_flatMap (tasks : List AwaitRes) :
    successCount (tasks.flatMap taskEmit) = tasks.countP taskSucceeds := by
  induction tasks with
  | nil => simp [successCount]
  | cons a l ih =>
      rw [List.flatMap_cons, successCount_append, ih, List.countP_cons,
        successCount_taskEmit]
      omega

lemma successCount_map_some (scheds : List AOutcome) :
    successCount (scheds.map some) = scheds.countP (fun o => o.success) := by
  unfold successCount
  rw [List.countP_map]
  rfl

lemma count_task_compl (tasks : List AwaitRes) (h : ∀ t ∈ tasks, t ≠ .retNone) :
    tasks.countP taskSucceeds + tasks.countP taskMalformed = tasks.length := by
  induction tasks with
  | nil => simp
  | cons a l ih =>
      have ha := h a (List.mem_cons_self a l)
      have hl := ih (fun t ht => h t (List.mem_cons_of_mem a ht))
      rw [List.countP_cons, List.countP_cons]
      cases a with
      | ret o => cases ho : o.success <;> simp [taskSucceeds, taskMalformed, ho] <;> omega
      | retNone => exact absurd rfl ha
      | exn e => simp [taskSucceeds, taskMalformed] <;> omega

lemma count_sched_compl (scheds : List AOutcome) :
    scheds.countP (fun o => o.success) + scheds.countP schedMalformed = scheds.length := by
  induction scheds with
  | nil => simp
  | cons a l ih =>
      rw [List.countP_cons, List.countP_cons]
      cases ho : a.success <;> simp [schedMalformed, ho] <;> omega

lemma flatMap_taskEmit_length (tasks : List AwaitRes)
    (h : ∀ t ∈ tasks, t ≠ .retNone) :
    (tasks.flatMap taskEmit).length = tasks.length := by
  induction tasks with
  | nil => simp
  | cons a l ih =>
      rw [List.flatMap_cons, List.length_append,
        taskEmit_length a (h a (List.mem_cons_self a l)),
        ih (fun t ht => h t (List.mem_cons_of_mem a ht)), List.length_cons]
      omega

lemma flatMap_taskErrs_length (tasks : List AwaitRes)
    (h : ∀ t ∈ tasks, t ≠ .retNone) :
    (tasks.flatMap taskErrs).length = tasks.countP taskRaised := by
  induction tasks with
  | nil => simp
  | cons a l ih =>
      have hl := ih (fun t ht => h t (List.mem_cons_of_mem a ht))
      rw [List.flatMap_cons, List.length_append, hl, List.countP_cons]
      cases a with
      | ret o => simp [taskErrs, taskRaised]
      | retNone => exact absurd rfl (h _ (List.mem_cons_self _ l))
      | exn e => simp [taskErrs, taskRaised] <;> omega

/-! ## Theorems for `process_response` (claim C1) -/

/-- Counterexample to C1 as stated: a response whose single action (so
N = 1, exactly one malformed) is a scheduled action whose database insert
raises.  `_schedule_action` catches the exception itself and returns a
failure dict, so processing yields one non-success outcome and an **empty**
`errors` list — the malformed action's error is not recorded in `errors`,
contradicting the claim. -/
theorem C1_counterexample :
    schedMalformed (schedule_action_run true "db insert failed") = true ∧
    (process_response_model [] [schedule_action_run true "db insert failed"]).outcomes.length = 1 ∧
    successCount
      (process_response_model [] [schedule_action_run true "db insert failed"]).outcomes = 0 ∧
    (process_response_model [] [schedule_action_run true "db insert failed"]).errors = [] := by
  decide

/-- C1 as amended: for a batch of N actions in which exactly one is
malformed — provided every awaited task handler returns a dict rather than
Python `None` — `process_response` still yields `len(outcomes) == N` with
exactly N-1 outcomes having `success=True`; processing of the remaining
actions is not aborted.  The `errors` list receives exactly one entry per
task whose coroutine raised to the dispatch loop; a malformed action whose
handler caught its own exception (every scheduled action, and any task
handler returning a failure dict) records its error only inside its
non-success outcome, leaving `errors` empty. -/
theorem C1_theorem (tasks : List AwaitRes) (scheds : List AOutcome)
    (hnone : ∀ t ∈ tasks, t ≠ .retNone)
    (hone : tasks.countP taskMalformed + scheds.countP schedMalformed = 1) :
    (process_response_model tasks scheds).outcomes.length =
      tasks.length + scheds.length ∧
    successCount (process_response_model tasks scheds).outcomes =
      tasks.length + scheds.length - 1 ∧
    (process_response_model tasks scheds).errors.length = tasks.countP taskRaised ∧
    ((process_response_model tasks scheds).errors ≠ [] ∨
      ∃ o ∈ (process_response_model tasks scheds).outcomes,
        ∃ a, o = some a ∧ a.success = false) := by
  rw [process_response_model_eq]
  have hTc := count_task_compl tasks hnone
  have hSc := count_sched_compl scheds
  have hT1 : tasks.countP taskMalformed ≤ tasks.length := List.countP_le_length _
  have hS1 : scheds.countP schedMalformed ≤ scheds.length := List.countP_le_length _
  refine ⟨?_, ?_, ?_, ?_⟩
  · rw [List.length_append, flatMap_taskEmit_length tasks hnone, List.length_map]
  · rw [successCount_append, successCount_flatMap, successCount_map_some]
    omega
  · rw [flatMap_taskErrs_length tasks hnone]
  · rcases Nat.eq_zero_or_pos (scheds.countP schedMalformed) with hS | hS
    · have hTm : 0 < tasks.countP taskMalformed := by omega
      obtain ⟨t, htmem, htm⟩ := List.countP_pos.mp hTm
      cases t with
      | ret o =>
          refine Or.inr ⟨some o, ?_, o, rfl, ?_⟩
          · exact List.mem_append_left _
              (List.mem_flatMap.mpr ⟨.ret o, htmem, by simp [taskEmit]⟩)
          · simpa [taskMalformed] using htm
      | retNone => exact absurd rfl (hnone _ htmem)
      | exn e =>
          refine Or.inl ?_
          have : ("Error processing action: " ++ e) ∈ tasks.flatMap taskErrs :=
            List.mem_flatMap.mpr ⟨.exn e, htmem, by simp [taskErrs]⟩
          intro hemp
          have hemp' : tasks.flatMap taskErrs = [] := hemp
          rw [hemp'] at this
          exact List.not_mem_nil _ this
    · obtain ⟨o, homem, hom⟩ := List.countP_pos.mp hS
      refine Or.inr ⟨some o, ?_, o, rfl, ?_⟩
      · exact List.mem_append_right _ (List.mem_map_of_mem some homem)
      · simpa [schedMalformed] using hom

/-- Witness for C1 at concrete data: two well-formed task actions and one
task whose coroutine raises (N = 3, one malformed): three outcomes, two
successes, and the raising task's error recorded in `errors`. -/
theorem C1_witness :
    (process_response_model
        [.ret { success := true, error := none, user_visible := true },
         .exn "invalid enum value",
         .ret { success := true, error := none, user_visible := true }]
        []).outcomes.length = 3 ∧
    successCount (process_response_model
        [.ret { success := true, error := none, user_visible := true },
         .exn "invalid enum value",
         .ret { success := true, error := none, user_visible := true }]
        []).outcomes = 3 - 1 ∧
    (process_response_model
        [.ret { success := true, error := none, user_visible := true },
         .exn "invalid enum value",
         .ret { success := true, error := none, user_visible := true }]
        []).errors.length =
      List.countP taskRaised
        [.ret { success := true, error := none, user_visible := true },
         .exn "invalid enum value",
         .ret { success := true, error := none, user_visible := true }] ∧
    ((process_response_model
        [.ret { success := true, error := none, user_visible := true },
         .exn "invalid enum value",
         .ret { success := true, error := none, user_visible := true }]
        []).errors ≠ [] ∨
      ∃ o ∈ (process_response_model
        [.ret { success := true, error := none, user_visible := true },
         .exn "invalid enum value",
         .ret { success := true, error := none, user_visible := true }]
        []).outcomes, ∃ a, o = some a ∧ a.success = false) := by
  have h := C1_theorem
    [.ret { success := true, error := none, user_visible := true },
     .exn "invalid enum value",
     .ret { success := true, error := none, user_visible := true }]
    [] (by decide) (by decide)
  simpa using h

/-! ## Theorems for completion logging (claims C3 and C4) -/

lemma matches_bump (uid : ℕ) (ident : String) (now : ℚ) (cid : ℕ) :
    (matches_habit_query uid ident) ∘ (bump_completion now cid) =
      matches_habit_query uid ident := by
  funext x
  simp only [Function.comp_apply, bump_completion]
  split <;> rfl

lemma bump_self (now : ℚ) (c : DbCommitment) :
    bump_completion now c.id c =
      { c with completion_count := c.completion_count + 1,
               last_completed_at := some now } := by
  simp [bump_completion]

/-- C3: logging a completion twice for the same (commitment, date) pair
succeeds both times — the second outcome reporting already-completed —
while creating exactly one `CommitmentCompletion` row for the pair and
incrementing `completion_count` exactly once.  `c` is the first commitment
the identifier lookup returns and the pair has no prior completion row. -/
theorem C3_theorem (db : Database) (uid : ℕ) (now now' : ℚ) (today today' : ℤ)
    (ident : String) (d : ℤ) (c : DbCommitment)
    (hfind : db.commitments.find? (matches_habit_query uid ident) = some c)
    (hnodup : ∀ r ∈ db.completions,
      ¬(r.commitment_id = c.id ∧ r.completion_date = d)) :
    (log_commitment_completion ⟨ident, some d, none⟩ uid now today db).2.success = true ∧
    (log_commitment_completion ⟨ident, some d, none⟩ uid now' today'
        (log_commitment_completion ⟨ident, some d, none⟩ uid now today db).1).2.success
      = true ∧
    (log_commitment_completion ⟨ident, some d, none⟩ uid now' today'
        (log_commitment_completion ⟨ident, some d, none⟩ uid now today db).1).2.otype
      = "commitment_already_completed" ∧
    ((log_commitment_completion ⟨ident, some d, none⟩ uid now' today'
        (log_commitment_completion ⟨ident, some d, none⟩ uid now today db).1).1.completions.filter
        (fun r => r.commitment_id = c.id && r.completion_date = d)).length = 1 ∧
    (log_commitment_completion ⟨ident, some d, none⟩ uid now' today'
        (log_commitment_completion ⟨ident, some d, none⟩ uid now today db).1).1.commitments.find?
        (matches_habit_query uid ident)
      = some { c with completion_count := c.completion_count + 1,
                      last_completed_at := some now } := by
  have hpfalse : ∀ r ∈ db.completions,
      ¬((fun r => r.commitment_id = c.id && r.completion_date = d) r = true) := by
    intro r hr
    have := hnodup r hr
    simp only [Bool.and_eq_true, decide_eq_true_eq]
    tauto
  have hnone1 : db.completions.find?
      (fun r => r.commitment_id = c.id && r.completion_date = d) = none :=
    List.find?_eq_none.mpr hpfalse
  have e1 : log_commitment_completion ⟨ident, some d, none⟩ uid now today db =
      ({ commitments := db.commitments.map (bump_completion now c.id)
         completions := db.completions ++
           [{ commitment_id := c.id, user_id := uid, completion_date := d
              completed_at := now, notes := none, skipped := false }]
         next_id := db.next_id },
       { success := true, otype := "commitment_completed",
         was_auto_created := false, commitment_id := c.id }) := by
    unfold log_commitment_completion
    rw [hfind]
    unfold log_completion_for
    simp only [Option.getD_some]
    rw [hnone1]
  have hfind2 : (db.commitments.map (bump_completion now c.id)).find?
      (matches_habit_query uid ident) =
      some { c with completion_count := c.completion_count + 1,
                    last_completed_at := some now } := by
    rw [List.find?_map, matches_bump, hfind]
    have hms : Option.map (bump_completion now c.id) (some c) =
        some (bump_completion now c.id c) := rfl
    rw [hms, bump_self]
  have hrowp : ((fun r => r.commitment_id = c.id && r.completion_date = d)
      ({ commitment_id := c.id, user_id := uid, completion_date := d
         completed_at := now, notes := none, skipped := false } : DbCompletion)) = true := by
    simp
  have hnone2 : (db.completions ++
      [({ commitment_id := c.id, user_id := uid, completion_date := d
          completed_at := now, notes := none, skipped := false } : DbCompletion)]).find?
      (fun r => r.commitment_id = c.id && r.completion_date = d) =
      some { commitment_id := c.id, user_id := uid, completion_date := d
             completed_at := now, notes := none, skipped := false } := by
    rw [List.find?_append, hnone1]
    simp
  have e2 : log_commitment_completion ⟨ident, some d, none⟩ uid now' today'
      (log_commitment_completion ⟨ident, some d, none⟩ uid now today db).1 =
      ((log_commitment_completion ⟨ident, some d, none⟩ uid now today db).1,
       { success := true, otype := "commitment_already_completed",
         was_auto_created := false,
         commitment_id := c.id }) := by
    rw [e1]
    unfold log_commitment_completion
    rw [hfind2]
    unfold log_completion_for
    simp only [Option.getD_some]
    rw [hnone2]
  refine ⟨by rw [e1], by rw [e2], by rw [e2], ?_, ?_⟩
  · rw [e2, e1]
    simp only [List.filter_append]
    rw [List.filter_eq_nil_iff.mpr hpfalse]
    simp [hrowp]
  · rw [e2, e1]
    exact hfind2

/-- Witness for C3: a user with one active daily commitment (id 1,
task "morning run"); the identifier "run" matches it; logging twice for
day 19900. -/
theorem C3_witness :
    (log_commitment_completion ⟨"run", some 19900, none⟩ 7 5 19900
        ⟨[⟨1, 7, "morning run", "daily", "active", 0, none⟩], [], 2⟩).2.success = true ∧
    (log_commitment_completion ⟨"run", some 19900, none⟩ 7 6 19901
        (log_commitment_completion ⟨"run", some 19900, none⟩ 7 5 19900
          ⟨[⟨1, 7, "morning run", "daily", "active", 0, none⟩], [], 2⟩).1).2.success = true ∧
    (log_commitment_completion ⟨"run", some 19900, none⟩ 7 6 19901
        (log_commitment_completion ⟨"run", some 19900, none⟩ 7 5 19900
          ⟨[⟨1, 7, "morning run", "daily", "active", 0, none⟩], [], 2⟩).1).2.otype =
      "commitment_already_completed" ∧
    ((log_commitment_completion ⟨"run", some 19900, none⟩ 7 6 19901
        (log_commitment_completion ⟨"run", some 19900, none⟩ 7 5 19900
          ⟨[⟨1, 7, "morning run", "daily", "active", 0, none⟩], [], 2⟩).1).1.completions.filter
        (fun r => r.commitment_id = (⟨1, 7, "morning run", "daily", "active", 0, none⟩ :
            DbCommitment).id && r.completion_date = 19900)).length = 1 ∧
    (log_commitment_completion ⟨"run", some 19900, none⟩ 7 6 19901
        (log_commitment_completion ⟨"run", some 19900, none⟩ 7 5 19900
          ⟨[⟨1, 7, "morning run", "daily", "active", 0, none⟩], [], 2⟩).1).1.commitments.find?
        (matches_habit_query 7 "run")
      = some { (⟨1, 7, "morning run", "daily", "active", 0, none⟩ : DbCommitment) with
               completion_count := 0 + 1, last_completed_at := some 5 } :=
  C3_theorem ⟨[⟨1, 7, "morning run", "daily", "active", 0, none⟩], [], 2⟩ 7 5 6 19900 19901
    "run" 19900 ⟨1, 7, "morning run", "daily", "active", 0, none⟩
    (by decide) (by simp)

/-- Counterexample to C4 as stated: the claim requires the auto-created
commitment's `task_description` to be the cleaned/normalized form of the
identifier (stop-word removal, verb normalization, pattern collapsing —
`HabitMatcher.normalize_habit_name`), but the source uses the merely
whitespace-stripped identifier (`habit_action.habit_identifier.strip()`).
For the identifier "went jogging" the normalized form is "jogging" (the
stop word "went" is dropped), while the created commitment keeps the name
"went jogging". -/
theorem C4_counterexample :
    ((log_commitment_completion ⟨"went jogging", some 0, none⟩ 1 0 0
        ⟨[], [], 1⟩).1.commitments.map (fun c => c.task_description)) =
      ["went jogging"] ∧
    normalize_habit_name "went jogging" = "jogging" ∧
    "went jogging" ≠ "jogging" := by
  decide

/-- C4 as amended: a habit completion whose identifier matches no active
recurring commitment auto-creates exactly one new daily recurring
commitment whose `task_description` is the **whitespace-stripped
identifier** (no stop-word/verb/pattern normalization is applied), and
attaches the completion record to that new commitment, whose
`completion_count` becomes 1.  Freshness of the flushed id is assumed. -/
theorem C4_theorem (db : Database) (uid : ℕ) (now : ℚ) (today : ℤ)
    (ident : String) (d : ℤ)
    (hnofind : db.commitments.find? (matches_habit_query uid ident) = none)
    (hfreshr : ∀ r ∈ db.completions, r.commitment_id ≠ db.next_id)
    (hfreshc : ∀ x ∈ db.commitments, x.id ≠ db.next_id) :
    (log_commitment_completion ⟨ident, some d, none⟩ uid now today db).2.success = true ∧
    (log_commitment_completion ⟨ident, some d, none⟩ uid now today db).2.was_auto_created
      = true ∧
    (log_commitment_completion ⟨ident, some d, none⟩ uid now today db).1.commitments =
      db.commitments ++
        [{ id := db.next_id, user_id := uid, task_description := trimStr ident
           recurrence_pattern := "daily", status := "active"
           completion_count := 1, last_completed_at := some now }] ∧
    (log_commitment_completion ⟨ident, some d, none⟩ uid now today db).1.completions =
      db.completions ++
        [{ commitment_id := db.next_id, user_id := uid, completion_date := d
           completed_at := now, notes := none, skipped := false }] ∧
    ((log_commitment_completion ⟨ident, some d, none⟩ uid now today db).1.completions.filter
        (fun r => r.commitment_id = db.next_id)).length = 1 := by
  have hpfalse : ∀ r ∈ db.completions,
      ¬((fun r => r.commitment_id =
          (auto_created_commitment ident uid db.next_id).id &&
            r.completion_date = d) r = true) := by
    intro r hr
    have := hfreshr r hr
    simp only [auto_created_commitment, Bool.and_eq_true, decide_eq_true_eq]
    tauto
  have hnone1 : db.completions.find?
      (fun r => r.commitment_id = (auto_created_commitment ident uid db.next_id).id &&
        r.completion_date = d) = none :=
    List.find?_eq_none.mpr hpfalse
  have hmapeq : db.commitments.map
      (bump_completion now (auto_created_commitment ident uid db.next_id).id) =
      db.commitments := by
    have := List.map_congr_left (l := db.commitments)
      (f := bump_completion now (auto_created_commitment ident uid db.next_id).id)
      (g := id) ?_
    · rw [this, List.map_id]
    · intro a ha
      have hne := hfreshc a ha
      simp only [bump_completion, auto_created_commitment, id]
      split
      · next hcon => exact absurd hcon hne
      · rfl
  have e1 : log_commitment_completion ⟨ident, some d, none⟩ uid now today db =
      ({ commitments := db.commitments ++
           [{ id := db.next_id, user_id := uid, task_description := trimStr ident
              recurrence_pattern := "daily", status := "active"
              completion_count := 1, last_completed_at := some now }]
         completions := db.completions ++
           [{ commitment_id := db.next_id, user_id := uid, completion_date := d
              completed_at := now, notes := none, skipped := false }]
         next_id := db.next_id + 1 },
       { success := true, otype := "commitment_completed",
         was_auto_created := true, commitment_id := db.next_id }) := by
    unfold log_commitment_completion
    rw [hnofind]
    unfold log_completion_for
    simp only [Option.getD_some]
    rw [hnone1]
    simp only [List.map_append, hmapeq]
    simp [bump_completion, auto_created_commitment]
  refine ⟨by rw [e1], by rw [e1], by rw [e1], by rw [e1], ?_⟩
  rw [e1]
  simp only [List.filter_append]
  have : db.completions.filter (fun r => r.commitment_id = db.next_id) = [] := by
    rw [List.filter_eq_nil_iff]
    intro a ha
    have := hfreshr a ha
    simpa using this
  rw [this]
  simp

/-- Witness for C4: empty database, identifier "went jogging" with a
trailing space: the auto-created commitment's name is the stripped
identifier. -/
theorem C4_witness :
    (log_commitment_completion ⟨"went jogging ", some 3, none⟩ 2 9 3
        ⟨[], [], 5⟩).2.success = true ∧
    (log_commitment_completion ⟨"went jogging ", some 3, none⟩ 2 9 3
        ⟨[], [], 5⟩).2.was_auto_created = true ∧
    (log_commitment_completion ⟨"went jogging ", some 3, none⟩ 2 9 3
        ⟨[], [], 5⟩).1.commitments =
      ([] : List DbCommitment) ++
        [{ id := 5, user_id := 2, task_description := trimStr "went jogging "
           recurrence_pattern := "daily", status := "active"
           completion_count := 1, last_completed_at := some 9 }] ∧
    (log_commitment_completion ⟨"went jogging ", some 3, none⟩ 2 9 3
        ⟨[], [], 5⟩).1.completions =
      ([] : List DbCompletion) ++
        [{ commitment_id := 5, user_id := 2, completion_date := 3
           completed_at := 9, notes := none, skipped := false }] ∧
    ((log_commitment_completion ⟨"went jogging ", some 3, none⟩ 2 9 3
        ⟨[], [], 5⟩).1.completions.filter
        (fun r => r.commitment_id = 5)).length = 1 :=
  C4_theorem ⟨[], [], 5⟩ 2 9 3 "went jogging " 3 rfl (by simp) (by simp)

/-! ## Theorems for retrieval ranking (claim C9) and intent fallback
(claim C7) -/

/-- C9: the merge itself deduplicates by id and thresholds vector matches,
but the final ranking reads the stored `semantic_similarity` value, which
is `None` for every keyword entry; `dict.get` returns that stored `None`
(the `similarity_score` fallback is dead code), and sorting then compares
`None`, raising `TypeError`.  Evaluated at a failing input: the message
"call mom today" with two keyword candidates and no vector matches makes
`_get_enhanced_similar_commitments` raise instead of returning a ranked
list. -/
theorem C9_theorem :
    (get_similar_commitments "call mom today" c9_recent 2).length = 2 ∧
    enhanced_similar_commitments "call mom today" c9_recent [] 3 =
      Except.error "TypeError: NoneType is not orderable" :=
  ⟨by decide, rfl⟩

/-- C7: the embedding-based intent scorer is total, and whenever the
document has no vector, or the best blended score (cosine similarity plus
0.3 times the pattern boost) is below the 0.4 threshold, it returns
`general_chat` with confidence exactly 0.5. -/
theorem C7_theorem (hasVector : Bool) (sim : String → ℚ) (text : String)
    (h : hasVector = false ∨ (best_intent sim text).2 < 2/5) :
    classify_intent_semantic hasVector sim text = ("general_chat", 1/2) := by
  unfold classify_intent_semantic
  rcases h with h | h
  · rw [h]
    rfl
  · cases hv : hasVector
    · rfl
    · simp [h]

/-- Witness for C7: a message with no embedding vector classifies as
`general_chat` with confidence 0.5. -/
theorem C7_witness :
    classify_intent_semantic false (fun _ => 1) "hello there" =
      ("general_chat", 1/2) :=
  C7_theorem false (fun _ => 1) "hello there" (Or.inl rfl)

/-! ## Theorems for the commitment parser (claim C8) -/

lemma isPrefixOf_refl_chars : ∀ l : List Char, List.isPrefixOf l l = true := by
  intro l
  induction l with
  | nil => rfl
  | cons c cs ih => simp [List.isPrefixOf, ih]

lemma endsWith_self (s : String) : endsWithStr s s = true := by
  unfold endsWithStr List.isSuffixOf
  exact isPrefixOf_refl_chars _

lemma time_alt_tomorrow : time_alt ["tomorrow"] = some ("tomorrow", []) := by
  decide

lemma lazy_task_full (xs : List String) :
    ∀ acc, xs ≠ [] →
    (∀ j, 1 ≤ j → j < xs.length → time_alt (xs.drop j ++ ["tomorrow"]) = none) →
    lazy_task acc (xs ++ ["tomorrow"]) = some (acc ++ xs, "tomorrow", []) := by
  induction xs with
  | nil => intro acc h _; exact absurd rfl h
  | cons x xs' ih =>
      intro acc _ htrig
      cases xs' with
      | nil => simp [lazy_task, time_alt_tomorrow]
      | cons y ys =>
          have h1 : time_alt (y :: (ys ++ ["tomorrow"])) = none := by
            have h := htrig 1 le_rfl (by simp)
            simpa using h
          have ih2 := ih (acc ++ [x]) (by simp)
            (fun j hj1 hj2 => by
              have h := htrig (j + 1) (by omega)
                (by simp only [List.length_cons] at hj2 ⊢; omega)
              simpa [List.drop_succ_cons] using h)
          simp only [List.cons_append] at ih2 ⊢
          unfold lazy_task
          rw [h1, ih2]
          simp

lemma scan_prefix_aux_nil (fuel : ℕ) (pre : List String) :
    scan_prefix_aux fuel pre [] = [] := by
  cases fuel <;> simp [scan_prefix_aux]

lemma scan_first (t0 : String) (xs : List String)
    (h0 : lowerStr t0 = iWillShort) (hx : xs ≠ [])
    (htrig : ∀ j, 1 ≤ j → j < xs.length →
      time_alt (xs.drop j ++ ["tomorrow"]) = none) :
    scan_prefix [iWillShort] (t0 :: (xs ++ ["tomorrow"])) =
      [(xs, "tomorrow")] := by
  unfold scan_prefix
  rw [List.length_cons]
  unfold scan_prefix_aux
  have hpre : prefix_hit [iWillShort] (t0 :: (xs ++ ["tomorrow"])) = true := by
    simp only [prefix_hit]
    rw [h0, endsWith_self]
    cases xs with
    | nil => exact absurd rfl hx
    | cons y ys => simp [List.isPrefixOf]
  rw [hpre]
  simp only [if_true, List.length_cons, List.length_nil, List.drop_succ_cons,
    List.drop_zero]
  rw [lazy_task_full xs [] hx htrig]
  simp [scan_prefix_aux_nil]

lemma foldl_match_emit (now : PyDT) (msg : String)
    (l : List (List String × String)) :
    ∀ acc, l.foldl (fun acc m =>
        if match_skipped m then acc else acc ++ [match_commit now msg m]) acc =
      acc ++ (l.filter (fun m => !match_skipped m)).map (match_commit now msg) := by
  induction l with
  | nil => intro acc; simp
  | cons m l' ih =>
      intro acc
      rw [List.foldl_cons]
      cases hm : match_skipped m with
      | true => rw [if_pos rfl, ih, List.filter_cons]; simp [hm]
      | false => rw [if_neg (by simp), ih, List.filter_cons]; simp [hm]

lemma parse_deadline_tomorrow (now : PyDT) :
    parse_deadline now "tomorrow" = endOfDay (now.day + 1) := rfl

lemma dedupe_cons (c : ParsedCommitment) (rest : List ParsedCommitment) :
    dedupe_commitments [] (c :: rest) =
      c :: dedupe_commitments [lowerStr c.task_description] rest := by
  simp [dedupe_commitments]

/-- Counterexample to C8 as stated: the message "I'll do it tomorrow"
contains the commitment phrase (X = "do it"), yet the parser extracts no
commitment at all — the cleaned task "Do it" is filtered out as a generic
placeholder — so no deadline/task properties can hold for it. -/
theorem C8_counterexample :
    lowerStr (String.mk ['I', apos, 'l', 'l']) = iWillShort ∧
    extract_commitments ⟨20000, 0⟩
      [String.mk ['I', apos, 'l', 'l'], "do", "it", "tomorrow"] = [] := by
  decide

/-- C8 as amended: for a tokenized message of the form I'll X tomorrow
whose task X triggers the time alternation at no token position (no token
starting with today/tomorrow, and no token this/by followed by a token
with a word-character prefix — the unanchored regex would match there
first) and whose cleaned form passes the length/placeholder filter, the
parser extracts (first in its result list) a commitment with that
non-empty cleaned task and a deadline at end-of-day granularity (23:59:59
of the following day), strictly after the parse time.  (The original
claim fails for generic placeholder tasks such as "do it", which are
silently skipped.) -/
theorem C8_theorem (now : PyDT) (t0 : String) (xs : List String)
    (h0 : lowerStr t0 = iWillShort) (hx : xs ≠ [])
    (htrig : ∀ j, 1 ≤ j → j < xs.length →
      time_alt (xs.drop j ++ ["tomorrow"]) = none)
    (hskip : match_skipped (xs, "tomorrow") = false) :
    ∃ rest, extract_commitments now (t0 :: (xs ++ ["tomorrow"])) =
      { task_description := clean_task xs
        original_message := String.intercalate " " (t0 :: (xs ++ ["tomorrow"]))
        deadline := endOfDay (now.day + 1)
        time_phrase := "tomorrow" } :: rest ∧
    clean_task xs ≠ "" ∧
    dtBefore now (endOfDay (now.day + 1)) = true ∧
    (endOfDay (now.day + 1)).usec = endOfDayUsec := by
  have hfirst := scan_first t0 xs h0 hx htrig
  have htp : trimStr "tomorrow" = "tomorrow" := by decide
  have hcommit : match_commit now
      (String.intercalate " " (t0 :: (xs ++ ["tomorrow"]))) (xs, "tomorrow") =
      { task_description := clean_task xs
        original_message := String.intercalate " " (t0 :: (xs ++ ["tomorrow"]))
        deadline := endOfDay (now.day + 1)
        time_phrase := "tomorrow" } := by
    unfold match_commit
    rw [htp, parse_deadline_tomorrow]
  have hexists : ∃ rest, extract_commitments now (t0 :: (xs ++ ["tomorrow"])) =
      { task_description := clean_task xs
        original_message := String.intercalate " " (t0 :: (xs ++ ["tomorrow"]))
        deadline := endOfDay (now.day + 1)
        time_phrase := "tomorrow" } :: rest := by
    unfold extract_commitments all_matches
    rw [hfirst]
    simp only [List.cons_append, List.append_assoc, List.nil_append]
    rw [List.foldl_cons, if_neg (by simp [hskip]), foldl_match_emit]
    simp only [List.nil_append]
    rw [hcommit]
    simp only [List.cons_append, List.nil_append]
    rw [dedupe_cons]
    exact ⟨_, rfl⟩
  obtain ⟨rest, hr⟩ := hexists
  refine ⟨rest, hr, ?_, ?_, rfl⟩
  · intro hempty
    have hunf : match_skipped (xs, "tomorrow") =
        ((clean_task xs).toList.length < 3 ||
          lowerStr (clean_task xs) ∈ generic_tasks : Bool) := rfl
    have hms : match_skipped (xs, "tomorrow") = true := by
      rw [hunf, hempty]
      decide
    rw [hms] at hskip
    exact Bool.true_eq_false.mp hskip
  · have hlt : now.day < now.day + 1 := by omega
    simp [dtBefore, endOfDay, hlt]

/-- Witness for C8: the message "I'll call mom tomorrow" (tokens with the
capitalized contraction) parsed at noon of day 20000 yields first the
commitment "Call mom" with deadline 23:59:59 of day 20001. -/
theorem C8_witness :
    ∃ rest, extract_commitments ⟨20000, 43200000000⟩
      (String.mk ['I', apos, 'l', 'l'] :: (["call", "mom"] ++ ["tomorrow"])) =
      { task_description := clean_task ["call", "mom"]
        original_message := String.intercalate " "
          (String.mk ['I', apos, 'l', 'l'] :: (["call", "mom"] ++ ["tomorrow"]))
        deadline := endOfDay ((20001 : ℤ))
        time_phrase := "tomorrow" } :: rest ∧
    clean_task ["call", "mom"] ≠ "" ∧
    dtBefore ⟨20000, 43200000000⟩ (endOfDay ((20001 : ℤ))) = true ∧
    (endOfDay ((20001 : ℤ))).usec = endOfDayUsec :=
  C8_theorem ⟨20000, 43200000000⟩ (String.mk ['I', apos, 'l', 'l'])
    ["call", "mom"] (by decide) (by decide)
    (by
      intro j h1 h2
      have : j = 1 := by simp at h2; omega
      subst this
      decide)
    (by decide)

/-! ## Theorems for the parse-failure fallback (claim C2) -/

/-- Counterexample to C2 as stated: the raw text "Hello world" is not
JSON and has no fenced block, so `process_message` returns the fallback
response — but its `message` is the cleaned raw text itself, which is
neither a regex-salvaged `"message"` value (the regex does not match) nor
the generic default string. -/
theorem C2_counterexample :
    extractMessageField (trimChars (stripTags ("Hello world".toList))) = none ∧
    (process_message_model triv_oracles "hi" "Hello world" none none).message =
      .jstr "Hello world" ∧
    (process_message_model triv_oracles "hi" "Hello world" none none).message ≠
      .jstr genericMsg := by
  refine ⟨rfl, rfl, ?_⟩
  intro h
  rw [show (process_message_model triv_oracles "hi" "Hello world" none none).message =
      .jstr "Hello world" from rfl] at h
  have h2 : "Hello world" = genericMsg := by
    injection h
  exact absurd h2 (by decide)

/-- C2 as amended: when the raw text parses neither directly nor via a
fenced JSON block, `process_message` returns the fallback response — no
parse exception propagates — whose list fields are all empty and whose
`mood_analysis` is `None`; its `message` is the regex-salvaged `"message"`
value when the salvage regex matches, and otherwise either the generic
default string or the cleaned raw text itself (the latter whenever the
text does not look like JSON and is non-empty, a case the original claim
omits). -/
theorem C2_theorem (o : ParseOracles) (message raw : String) :
    process_message_model o message raw none none =
      create_fallback_response message raw ∧
    (create_fallback_response message raw).commitments = [] ∧
    (create_fallback_response message raw).habit_actions = [] ∧
    (create_fallback_response message raw).people_updates = [] ∧
    (create_fallback_response message raw).user_profile_updates = [] ∧
    (create_fallback_response message raw).scheduled_actions = [] ∧
    (create_fallback_response message raw).mood_analysis = none ∧
    ((∃ m, extractMessageField (trimChars (stripTags raw.toList)) = some m ∧
        (create_fallback_response message raw).message = .jstr (String.mk m)) ∨
      (create_fallback_response message raw).message = .jstr genericMsg ∨
      (create_fallback_response message raw).message =
        .jstr (String.mk (trimChars (stripTags raw.toList)))) := by
  refine ⟨rfl, rfl, rfl, rfl, rfl, rfl, rfl, ?_⟩
  have hmsg : (create_fallback_response message raw).message =
      .jstr (String.mk (fallback_message_chars raw)) := rfl
  have hmk : String.mk (genericMsg.toList) = genericMsg := rfl
  cases hE : extractMessageField (trimChars (stripTags raw.toList)) with
  | some m =>
      have hconv : fallback_conv (trimChars (stripTags raw.toList)) = m := by
        unfold fallback_conv
        rw [hE]
      cases hm : m.isEmpty with
      | true =>
          refine Or.inr (Or.inl ?_)
          rw [hmsg]
          have hch : fallback_message_chars raw = genericMsg.toList := by
            unfold fallback_message_chars
            rw [hconv, hm]
            simp
          rw [hch, hmk]
      | false =>
          refine Or.inl ⟨m, rfl, ?_⟩
          rw [hmsg]
          have hch : fallback_message_chars raw = m := by
            unfold fallback_message_chars
            rw [hconv, hm]
            simp
          rw [hch]
  | none =>
      cases hb : ((match trimChars (stripTags raw.toList) with
          | c :: _ => decide (c = lbrace)
          | [] => false) &&
          isSubListOf "message".toList (trimChars (stripTags raw.toList))) with
      | true =>
          have hconv : fallback_conv (trimChars (stripTags raw.toList)) =
              genericMsg.toList := by
            unfold fallback_conv
            rw [hE, hb]
            simp
          refine Or.inr (Or.inl ?_)
          rw [hmsg]
          have hch : fallback_message_chars raw = genericMsg.toList := by
            unfold fallback_message_chars
            rw [hconv]
            simp [genericMsg]
          rw [hch, hmk]
      | false =>
          have hconv : fallback_conv (trimChars (stripTags raw.toList)) =
              trimChars (stripTags raw.toList) := by
            unfold fallback_conv
            rw [hE, hb]
            simp
          cases hemp : (trimChars (stripTags raw.toList)).isEmpty with
          | true =>
              refine Or.inr (Or.inl ?_)
              rw [hmsg]
              have hch : fallback_message_chars raw = genericMsg.toList := by
                unfold fallback_message_chars
                rw [hconv, hemp]
                simp
              rw [hch, hmk]
          | false =>
              refine Or.inr (Or.inr ?_)
              rw [hmsg]
              have hch : fallback_message_chars raw =
                  trimChars (stripTags raw.toList) := by
                unfold fallback_message_chars
                rw [hconv, hemp]
                simp
              rw [hch]

/-! ## Theorems for defensive normalization (claim C6) -/

/-- Counterexample to C6 as stated: `exact` is not one of the recognized
`deadline_type` values, yet it is normalized to `specific`, not to
`fuzzy`. -/
theorem C6_counterexample :
    ¬ (∀ s : String, ¬ s ∈ valid_deadline_types →
        normalize_deadline_type (.jstr s) = "fuzzy") := by
  intro h
  have h2 := h "exact" (by decide)
  have h3 : normalize_deadline_type (.jstr "exact") = "specific" := rfl
  rw [h3] at h2
  exact absurd h2 (by decide)

/-- C6 as amended: unrecognized `deadline_type` values normalize to
`fuzzy` **except** the special synonyms — `generic`/`flexible` map to
`fuzzy` and `exact`/`fixed` map to `specific`; unrecognized `priority`
values normalize to `medium`; a `detected_mood` whose lowercase form is
unrecognized falls back to `neutral`; and a response object missing the
`mood_analysis` key parses — when parsing of the remaining fields
succeeds — to a `StructuredAIResponse` with `mood_analysis = None`. -/
theorem C6_theorem :
    (∀ s : String, ¬ s ∈ valid_deadline_types →
      ¬ s ∈ ["generic", "flexible", "exact", "fixed"] →
      normalize_deadline_type (.jstr s) = "fuzzy") ∧
    (normalize_deadline_type (.jstr "generic") = "fuzzy" ∧
     normalize_deadline_type (.jstr "flexible") = "fuzzy" ∧
     normalize_deadline_type (.jstr "exact") = "specific" ∧
     normalize_deadline_type (.jstr "fixed") = "specific") ∧
    (∀ s : String, ¬ s ∈ ["high", "medium", "low"] →
      normalize_priority (.jstr s) = "medium") ∧
    (∀ (fs : List (String × JVal)) (s : String),
      jget fs "detected_mood" = some (.jstr s) →
      ¬ lowerStr s ∈ valid_moods →
      truthy (.jobj fs) = true →
      ∃ ma, parse_mood_analysis (some (.jobj fs)) = Except.ok (some ma) ∧
        ma.detected_mood = "neutral") ∧
    (∀ (o : ParseOracles) (d : List (String × JVal)) (r : StructuredAIResponse),
      jget d "mood_analysis" = none →
      parse_structured_response o d = Except.ok r →
      r.mood_analysis = none) := by
  refine ⟨?_, ⟨rfl, rfl, rfl, rfl⟩, ?_, ?_, ?_⟩
  · intro s h1 h2
    simp only [List.mem_cons, List.not_mem_nil, or_false, not_or] at h2
    obtain ⟨hg, hf, he, hx⟩ := h2
    change (if s ∈ valid_deadline_types then s
      else if s = "generic" ∨ s = "flexible" then "fuzzy"
      else if s = "exact" ∨ s = "fixed" then "specific"
      else "fuzzy") = "fuzzy"
    rw [if_neg h1, if_neg (by tauto), if_neg (by tauto)]
  · intro s h1
    change (if s ∈ ["high", "medium", "low"] then s else "medium") = "medium"
    rw [if_neg h1]
  · intro fs s hget hval htr
    have hpm : parse_mood_analysis (some (.jobj fs)) =
        Except.ok (some
          { detected_mood := "neutral"
            confidence := jgetD fs "confidence" (.jnum (1/2))
            contributing_factors := jgetD fs "contributing_factors" (.jarr [])
            suggested_interventions := jgetD fs "suggested_interventions" (.jarr [])
            should_check_in_later := jgetD fs "should_check_in_later" (.jbool false) }) := by
      unfold parse_mood_analysis
      simp only [htr, hget, if_true]
      change (Except.ok (some
        ({ detected_mood := if lowerStr s ∈ valid_moods then lowerStr s else "neutral"
           confidence := jgetD fs "confidence" (.jnum (1/2))
           contributing_factors := jgetD fs "contributing_factors" (.jarr [])
           suggested_interventions := jgetD fs "suggested_interventions" (.jarr [])
           should_check_in_later := jgetD fs "should_check_in_later" (.jbool false) }
          : MoodAnalysis)) : Except String (Option MoodAnalysis)) =
        Except.ok (some
        ({ detected_mood := "neutral"
           confidence := jgetD fs "confidence" (.jnum (1/2))
           contributing_factors := jgetD fs "contributing_factors" (.jarr [])
           suggested_interventions := jgetD fs "suggested_interventions" (.jarr [])
           should_check_in_later := jgetD fs "should_check_in_later" (.jbool false) }
          : MoodAnalysis))
      rw [if_neg hval]
    exact ⟨_, hpm, rfl⟩
  · intro o d r hnone hr
    unfold parse_structured_response at hr
    rw [hnone] at hr
    cases h1 : parse_commitments_loop o (jlist d "commitments") with
    | error e =>
        rw [h1] at hr
        exact absurd hr (by simp [Except.bind, Bind.bind, Monad.toBind])
    | ok v1 =>
      rw [h1] at hr
      cases h2 : parse_item_loop o.mk_habit_action (jlist d "habit_actions") with
      | error e =>
          rw [h2] at hr
          exact absurd hr (by simp [Except.bind, Bind.bind, Monad.toBind])
      | ok v2 =>
        rw [h2] at hr
        cases h3 : parse_item_loop o.mk_person_update (jlist d "people_updates") with
        | error e =>
            rw [h3] at hr
            exact absurd hr (by simp [Except.bind, Bind.bind, Monad.toBind])
        | ok v3 =>
          rw [h3] at hr
          cases h4 : parse_item_loop o.mk_profile_update
              (jlist d "user_profile_updates") with
          | error e =>
              rw [h4] at hr
              exact absurd hr (by simp [Except.bind, Bind.bind, Monad.toBind])
          | ok v4 =>
            rw [h4] at hr
            cases h5 : parse_item_loop o.mk_scheduled_action
                (jlist d "scheduled_actions") with
            | error e =>
                rw [h5] at hr
                exact absurd hr (by simp [Except.bind, Bind.bind, Monad.toBind])
            | ok v5 =>
              rw [h5] at hr
              cases h6 : parse_response_metadata (jget d "response_metadata") with
              | error e =>
                  rw [h6] at hr
                  exact absurd hr
                    (by simp [Except.bind, Bind.bind, Monad.toBind, parse_mood_analysis])
              | ok v6 =>
                rw [h6] at hr
                have hmood := congrArg (fun x =>
                  match x with
                  | Except.ok y => y.mood_analysis
                  | Except.error _ => (none : Option MoodAnalysis)) hr
                exact hmood.symm

/-- Witness for C6 at concrete values: the unrecognized deadline type
"someday" maps to fuzzy, the unrecognized priority "urgent" to medium, an
uppercase unrecognized mood "ANGRY" to neutral, and the empty response
object (no `mood_analysis` key) parses with `mood_analysis = None`. -/
theorem C6_witness :
    normalize_deadline_type (.jstr "someday") = "fuzzy" ∧
    normalize_priority (.jstr "urgent") = "medium" ∧
    (∃ ma, parse_mood_analysis
        (some (.jobj [("detected_mood", .jstr "ANGRY")])) =
          Except.ok (some ma) ∧ ma.detected_mood = "neutral") ∧
    c6_empty_response.mood_analysis = none :=
  ⟨C6_theorem.1 "someday" (by decide) (by decide),
   C6_theorem.2.2.1 "urgent" (by decide),
   C6_theorem.2.2.2.1 [("detected_mood", .jstr "ANGRY")] "ANGRY" rfl
     (by decide) rfl,
   C6_theorem.2.2.2.2 triv_oracles [] c6_empty_response rfl rfl⟩

end PAA
